import Mathlib

/-! # slab_exporter: the row parser, name normaliser, metric mapper and line filter

A shallow embedding of `collector.go`.  A Go `string` is modelled as a Lean
`String` (its sequence of characters); every library routine the collector
calls on strings (`regexp` with the patterns of the file, `strings.Split`,
`strings.Replace`, `strconv.ParseInt`) only ever distinguishes ASCII
characters, so the functions below work on the character list `String.data`.
An `int64` is an `Int`, with the two's-complement wrap-around written out
where the Go code converts or negates, and a `float64` is the number it
stands for, with the rounding of the conversion from `int64` written out.
-/

namespace Exporter

/-! ## Constants -/

/-- The Go constant `namespace` (a reserved word in Lean). -/
def slabNamespace : String := "slab"

/-- The Go variable `slabMetrics`. -/
def slabMetrics : List String :=
  [ "active_objs",
    "num_objs",
    "objsize",
    "objperslab",
    "pagesperslab",
    "limit",
    "batchcount",
    "sharedfactor",
    "active_slabs",
    "num_slabs",
    "sharedavail" ]

/-! ## Library routines on strings -/

/-- The character class `\s` of Go's `regexp` package: tab, line feed, form
feed, carriage return and space (the vertical tab is not in it). -/
def isSpace (c : Char) : Bool :=
  c == '\t' || c == '\n' || c == '\x0c' || c == '\r' || c == ' '

/-- The loop of `space.ReplaceAllString(line, " ")` for `space = \s+`: the
flag says whether the previous character belonged to a match, so that every
maximal run of `\s` characters is replaced by one space. -/
def replaceRuns : Bool → List Char → List Char
  | _, [] => []
  | inRun, c :: cs =>
    if isSpace c then
      if inRun then replaceRuns true cs else ' ' :: replaceRuns true cs
    else c :: replaceRuns false cs

/-- The call `space.ReplaceAllString(line, " ")`. -/
def spaceReplaceAll (line : String) : String :=
  ⟨replaceRuns false line.data⟩

/-- Put a character in front of the first element of a list of pieces. -/
def consHead (c : Char) : List (List Char) → List (List Char)
  | [] => [[c]]
  | w :: ws => (c :: w) :: ws

/-- Cut a character list at every character satisfying `p`; the pieces
between two cuts, before the first and after the last are all kept, empty
ones included, so the result has one more element than there are cuts. -/
def splitWhere (p : Char → Bool) : List Char → List (List Char)
  | [] => [[]]
  | c :: cs => if p c then [] :: splitWhere p cs else consHead c (splitWhere p cs)

/-- The call `strings.Split(l, " ")`. -/
def Split (l : String) : List String :=
  (splitWhere (fun c => c == ' ') l.data).map String.mk

/-- The call `strings.Replace(s, old, new, -1)` for one-character `old` and
`new`: every occurrence of `old` is replaced. -/
def Replace (s : String) (old new : Char) : String :=
  ⟨s.data.map (fun c => if c = old then new else c)⟩

/-! ## formatName -/

/-- The function `formatName`. -/
def formatName (s : String) : String :=
  Replace (Replace (Replace (Replace s ':' '_') '.' '_') '-' '_') '/' '_'

/-! ## strconv.ParseInt -/

deriving instance DecidableEq for Except

/-- The sentinel errors `strconv.ErrSyntax` and `strconv.ErrRange`. -/
inductive ConvErr where
  | ErrSyntax
  | ErrRange
deriving DecidableEq, Repr

/-- The type `strconv.NumError`: the failing function, the input it was
given and the sentinel error. -/
structure NumError where
  Func : String
  Num : String
  Err : ConvErr
deriving DecidableEq, Repr

/-- The helper `syntaxError(fn, str)` of `strconv`. -/
def syntaxError (fn str : String) : NumError := ⟨fn, str, .ErrSyntax⟩

/-- The helper `rangeError(fn, str)` of `strconv`. -/
def rangeError (fn str : String) : NumError := ⟨fn, str, .ErrRange⟩

/-- The constant `maxUint64`. -/
def maxUint64 : Nat := 2 ^ 64 - 1

/-- The helper `lower(c)` of `strconv`: `c | ('x' - 'X')`. -/
def lower (c : Nat) : Nat := c ||| 32

/-- The digit a character stands for in the loop of `ParseUint`: a decimal
digit, a letter (worth ten and more), or nothing. -/
def digitOf (c : Char) : Option Nat :=
  if '0'.toNat ≤ c.toNat ∧ c.toNat ≤ '9'.toNat then some (c.toNat - '0'.toNat)
  else if 'a'.toNat ≤ lower c.toNat ∧ lower c.toNat ≤ 'z'.toNat then
    some (lower c.toNat - 'a'.toNat + 10)
  else none

/-- The loop of `ParseUint(s, 10, 64)` over the characters still to read,
`n` being the `uint64` accumulated so far.  It gives the value returned
together with the sentinel error, if any: `0` with a syntax error, `maxVal`
with a range error. -/
def parseUintLoop : List Char → Nat → Nat × Option ConvErr
  | [], n => (n, none)
  | c :: cs, n =>
    match digitOf c with
    | none => (0, some .ErrSyntax)
    | some d =>
      if d ≥ 10 then (0, some .ErrSyntax)
      else if n ≥ maxUint64 / 10 + 1 then (maxUint64, some .ErrRange)
      else
        let n10 := n * 10 % 2 ^ 64
        let n1 := (n10 + d) % 2 ^ 64
        if n1 < n10 ∨ n1 > maxUint64 then (maxUint64, some .ErrRange)
        else parseUintLoop cs n1

/-- The call `strconv.ParseUint(s, 10, 64)`. -/
def ParseUint (s : String) : Nat × Option NumError :=
  if s = "" then (0, some (syntaxError "ParseUint" s))
  else
    match parseUintLoop s.data 0 with
    | (n, none) => (n, none)
    | (n, some e) => (n, some ⟨"ParseUint", s, e⟩)

/-- The conversion `int64(un)` of a `uint64`. -/
def toInt64 (un : Nat) : Int :=
  if un % 2 ^ 64 < 2 ^ 63 then (un % 2 ^ 64 : Nat) else (un % 2 ^ 64 : Nat) - 2 ^ 64

/-- The negation `-n` of an `int64`, which wraps at the minimum. -/
def negInt64 (n : Int) : Int :=
  if n = -(2 ^ 63) then n else -n

/-- The call `strconv.ParseInt(s, 10, 64)`.  Go returns a value next to the
error; the value that comes with an error is dropped here, as `parseSlab`
never reads it. -/
def ParseInt (s : String) : Except NumError Int :=
  match s.data with
  | [] => .error (syntaxError "ParseInt" s)
  | c :: rest =>
    let neg := c == '-'
    let body : String := if c == '+' || c == '-' then ⟨rest⟩ else s
    match ParseUint body with
    | (_, some ⟨_, _, .ErrSyntax⟩) => .error ⟨"ParseInt", s, .ErrSyntax⟩
    | (un, _) =>
      let cutoff : Nat := 2 ^ 63
      if !neg && un ≥ cutoff then .error (rangeError "ParseInt" s)
      else if neg && un > cutoff then .error (rangeError "ParseInt" s)
      else
        let n := toInt64 un
        .ok (if neg then negInt64 n else n)

/-! ## The record and the row parser -/

/-- The struct `slabInfo`. -/
structure slabInfo where
  name : String
  objActive : Int
  objNum : Int
  objSize : Int
  objPerSlab : Int
  pagesPerSlab : Int
  limit : Int
  batch : Int
  sharedFactor : Int
  slabActive : Int
  slabNum : Int
  sharedAvail : Int
deriving DecidableEq, Repr

/-- A Go `error` as `parseSlab` returns it: the value built by `fmt.Errorf`,
with its message, or a `*strconv.NumError`. -/
inductive GoError where
  | errorf (msg : String)
  | numError (e : NumError)
deriving DecidableEq, Repr

/-- The element `s[i]` of a slice whose length has been checked. -/
def index (s : List String) (i : Nat) : String := s.getD i ""

/-- A call of `strconv.ParseInt(tok, 10, 64)` followed by
`if err != nil { return nil, err }`. -/
def parseField (tok : String) : Except GoError Int :=
  match ParseInt tok with
  | .ok v => .ok v
  | .error e => .error (.numError e)

/-- The function `parseSlab`. -/
def parseSlab (line : String) : Except GoError slabInfo :=
  let l := spaceReplaceAll line
  let s := Split l
  if s.length ≠ 16 then .error (.errorf ("unable to parse: " ++ line))
  else do
    let name := formatName (index s 0)
    let objActive ← parseField (index s 1)
    let objNum ← parseField (index s 2)
    let objSize ← parseField (index s 3)
    let objPerSlab ← parseField (index s 4)
    let pagesPerSlab ← parseField (index s 5)
    let limit ← parseField (index s 8)
    let batch ← parseField (index s 9)
    let sharedFactor ← parseField (index s 10)
    let slabActive ← parseField (index s 13)
    let slabNum ← parseField (index s 14)
    let sharedAvail ← parseField (index s 15)
    pure { name, objActive, objNum, objSize, objPerSlab, pagesPerSlab, limit, batch,
           sharedFactor, slabActive, slabNum, sharedAvail }

/-! ## The metric mapper -/

/-- The type `prometheus.Desc`, as far as `NewDesc` fills it here: the
fully-qualified name, the help text and the names of the variable labels
(the constant labels are `nil` at every call). -/
structure Desc where
  fqName : String
  help : String
  variableLabels : List String
deriving DecidableEq, Repr

/-- The type `prometheus.ValueType`. -/
inductive ValueType where
  | CounterValue
  | GaugeValue
  | UntypedValue
deriving DecidableEq, Repr

/-- How many of the low binary digits of `m` do not fit the 53-digit
significand of a `float64`: the number of halvings that bring `m` below
2^53, with `fuel` bounding the count. -/
def excessBits : Nat → Nat → Nat
  | 0, _ => 0
  | fuel + 1, m => if m < 2 ^ 53 then 0 else excessBits fuel (m / 2) + 1

/-- The `float64` nearest to a natural number below 2^64, a tie going to the
even significand (the rounding of IEEE 754 that Go's conversion uses).  The
result is again a natural number. -/
def roundToFloat64 (m : Nat) : Nat :=
  let e := excessBits 64 m
  let q := m / 2 ^ e
  let rest := m % 2 ^ e
  if 2 * rest > 2 ^ e ∨ (2 * rest = 2 ^ e ∧ q % 2 = 1) then (q + 1) * 2 ^ e else q * 2 ^ e

/-- The conversion `float64(n)` of an `int64`.  A `float64` is modelled by the
number it stands for, which is an integer for every converted `int64`. -/
def float64 (n : Int) : Int :=
  if n < 0 then -((roundToFloat64 n.natAbs : Nat) : Int) else ((roundToFloat64 n.natAbs : Nat) : Int)

/-- A constant metric as `MustNewConstMetric` builds it.  `val` is the
`float64` value of the metric, as the number it stands for. -/
structure Metric where
  desc : Desc
  valType : ValueType
  val : Int
  labelValues : List String
deriving DecidableEq, Repr

/-- The function `prometheus.BuildFQName`: the non-empty parts joined by
an underscore, and the empty string when `name` is empty. -/
def BuildFQName (ns subsystem name : String) : String :=
  if name = "" then ""
  else if ns ≠ "" ∧ subsystem ≠ "" then ns ++ "_" ++ subsystem ++ "_" ++ name
  else if ns ≠ "" then ns ++ "_" ++ name
  else if subsystem ≠ "" then subsystem ++ "_" ++ name
  else name

/-- The call `prometheus.NewDesc(fqName, help, variableLabels, nil)`. -/
def NewDesc (fqName help : String) (variableLabels : List String) : Desc :=
  ⟨fqName, help, variableLabels⟩

/-- The call `prometheus.MustNewConstMetric(desc, valueType, value,
labelValues...)`, `value` being a `float64`. -/
def MustNewConstMetric (desc : Desc) (valueType : ValueType) (value : Int)
    (labelValues : List String) : Metric :=
  ⟨desc, valueType, value, labelValues⟩

/-- The call `fmt.Sprintf("slab %s", m)`. -/
def sprintfSlab (m : String) : String := "slab " ++ m

/-- The method `(*slabInfo).metrics`. -/
def slabInfo.metrics (s : slabInfo) : List Metric :=
  [ MustNewConstMetric
      (NewDesc (BuildFQName slabNamespace "active" "objs") (sprintfSlab "active_objs") ["slab"])
      .GaugeValue (float64 s.objActive) [s.name],
    MustNewConstMetric
      (NewDesc (BuildFQName slabNamespace "objs" "num") (sprintfSlab "num_objs") ["slab"])
      .GaugeValue (float64 s.objNum) [s.name],
    MustNewConstMetric
      (NewDesc (BuildFQName slabNamespace "obj" "size") (sprintfSlab "objsize") ["slab"])
      .GaugeValue (float64 s.objSize) [s.name],
    MustNewConstMetric
      (NewDesc (BuildFQName slabNamespace "obj" "perslab") (sprintfSlab "objperslab") ["slab"])
      .GaugeValue (float64 s.objPerSlab) [s.name],
    MustNewConstMetric
      (NewDesc (BuildFQName slabNamespace "limit" "slabs") (sprintfSlab "limit") ["slab"])
      .GaugeValue (float64 s.limit) [s.name],
    MustNewConstMetric
      (NewDesc (BuildFQName slabNamespace "batch" "count") (sprintfSlab "batchcount") ["slab"])
      .GaugeValue (float64 s.batch) [s.name],
    MustNewConstMetric
      (NewDesc (BuildFQName slabNamespace "shared" "factor") (sprintfSlab "sharedfactor") ["slab"])
      .GaugeValue (float64 s.sharedFactor) [s.name],
    MustNewConstMetric
      (NewDesc (BuildFQName slabNamespace "slabs" "active") (sprintfSlab "active_slabs") ["slab"])
      .GaugeValue (float64 s.slabActive) [s.name],
    MustNewConstMetric
      (NewDesc (BuildFQName slabNamespace "slabs" "num") (sprintfSlab "num_slabs") ["slab"])
      .GaugeValue (float64 s.slabNum) [s.name],
    MustNewConstMetric
      (NewDesc (BuildFQName slabNamespace "shared" "avail") (sprintfSlab "sharedavail") ["slab"])
      .GaugeValue (float64 s.sharedAvail) [s.name] ]

/-! ## The line filter -/

/-- A compiled `*regexp.Regexp`, known by its method `MatchString`. -/
structure Regexp where
  MatchString : String → Bool

/-- Whether `pat` occurs in a character list as a contiguous block. -/
def occursIn (pat : List Char) : List Char → Bool
  | [] => pat.isEmpty
  | c :: cs => pat.isPrefixOf (c :: cs) || occursIn pat cs

/-- The pattern compiled from a text without metacharacters: it matches the
strings that contain the text. -/
def compileLiteral (text : String) : Regexp :=
  ⟨fun s => occursIn text.data s.data⟩

/-- The pattern compiled from `^` followed by a text without
metacharacters: it matches the strings that begin with the text. -/
def compileAnchored (text : String) : Regexp :=
  ⟨fun s => text.data.isPrefixOf s.data⟩

/-- The Go variable `slabVer`. -/
def slabVer : Regexp := compileLiteral "slabinfo -"

/-- The Go variable `slabHeader`. -/
def slabHeader : Regexp := compileLiteral "# name"

/-- The struct `slabCollector`; `r` is `none` for the nil pointer. -/
structure slabCollector where
  r : Option Regexp

/-- The function `NewSlabCollector`.  The configuration is the value stored
under the key `regex`, if any (`GetString` gives the empty string for an
absent key), and `compile` stands for `regexp.Compile`. -/
def NewSlabCollector (compile : String → Except GoError Regexp) (config : Option String) :
    Except GoError slabCollector :=
  let rStr := config.getD ""
  if rStr ≠ "" then
    match compile rStr with
    | .error err => .error err
    | .ok r => .ok ⟨some r⟩
  else .ok ⟨none⟩

/-- The method `(*slabCollector).shouldParse`. -/
def slabCollector.shouldParse (c : slabCollector) (line : String) : Bool :=
  if slabVer.MatchString line then false
  else if slabHeader.MatchString line then false
  else
    match c.r with
    | some r => if r.MatchString line then true else false
    | none => true

/-! ## The two passes of the collector -/

/-- The scanning loop of `Describe` over the lines of the opened file: the
records of the lines that `shouldParse` accepts and `parseSlab` parses,
appended in line order. -/
def describeLines (c : slabCollector) : List String → List slabInfo
  | [] => []
  | line :: rest =>
    if !c.shouldParse line then describeLines c rest
    else
      match parseSlab line with
      | .error _ => describeLines c rest
      | .ok s => s :: describeLines c rest

/-- The call `sort.Slice(slabInfos, ...)` with the comparison
`slabInfos[i].name > slabInfos[j].name`. -/
def sortByNameDescending (slabInfos : List slabInfo) : List slabInfo :=
  slabInfos.insertionSort (fun a b => a.name > b.name)

/-- The method `(*slabCollector).Describe`, as the sequence of descriptors
sent on the channel.  The file is `none` when `os.Open` fails and the list
of the lines the scanner yields otherwise. -/
def slabCollector.Describe (c : slabCollector) (file : Option (List String)) : List Desc :=
  match file with
  | none => []
  | some lines =>
    let slabInfos := describeLines c lines
    let _slabInfos := sortByNameDescending slabInfos
    slabMetrics.map (fun m =>
      NewDesc (BuildFQName slabNamespace m "slab") (sprintfSlab m) ["slab"])

/-- The scanning loop of `Collect` over the lines of the opened file: a line
that `shouldParse` rejects or `parseSlab` refuses is skipped, the
measurements of every other line are sent in order. -/
def collectLines (c : slabCollector) : List String → List Metric
  | [] => []
  | line :: rest =>
    if !c.shouldParse line then collectLines c rest
    else
      match parseSlab line with
      | .error _ => collectLines c rest
      | .ok s => s.metrics ++ collectLines c rest

/-- The method `(*slabCollector).Collect`, as the sequence of measurements
sent on the channel.  The file is `none` when `os.Open` fails and the list
of the lines the scanner yields otherwise. -/
def slabCollector.Collect (c : slabCollector) (file : Option (List String)) : List Metric :=
  match file with
  | none => []
  | some lines => collectLines c lines

/-! ## Definitions that follow the specification's words -/

/-- The substitution the specification gives for one character: an
underscore for a colon, period, hyphen or slash, the character itself
otherwise. -/
def normalizeChar (c : Char) : Char :=
  if c = ':' ∨ c = '.' ∨ c = '-' ∨ c = '/' then '_' else c

/-- A line begins with a text. -/
def beginsWith (text line : String) : Bool :=
  text.data.isPrefixOf line.data

/-- The whitespace-delimited tokens of a line: its maximal runs of
non-whitespace characters, in order. -/
def tokens (line : String) : List String :=
  ((splitWhere isSpace line.data).filter (fun t => !t.isEmpty)).map String.mk

/-- The last character of a character list is a whitespace character. -/
def lastIsSpace : List Char → Bool
  | [] => false
  | [c] => isSpace c
  | _ :: c :: cs => lastIsSpace (c :: cs)

/-- A line begins with a whitespace character. -/
def startsWithSpace (line : String) : Bool :=
  match line.data with
  | [] => false
  | c :: _ => isSpace c

/-- A line ends with a whitespace character. -/
def endsWithSpace (line : String) : Bool :=
  lastIsSpace line.data

/-- A decimal digit. -/
def isDecimalDigit (c : Char) : Bool :=
  decide ('0'.toNat ≤ c.toNat ∧ c.toNat ≤ '9'.toNat)

/-- The number written in base 10 by the digits of `n` followed by the
digits `ds`. -/
def digitsFold (n : Nat) (ds : List Char) : Nat :=
  ds.foldl (fun n c => 10 * n + (c.toNat - '0'.toNat)) n

/-- The number written in base 10 by one or more decimal digits; nothing for
the empty text and for a text with another character. -/
def digitsValue (ds : List Char) : Option Nat :=
  if ds ≠ [] ∧ ds.all isDecimalDigit = true then some (digitsFold 0 ds) else none

/-- The exact value of a token read as a base-10 integer: an optional sign
`+` or `-` followed by one or more decimal digits. -/
def decimalValue (tok : String) : Option Int :=
  match tok.data with
  | [] => none
  | c :: ds =>
    if c = '-' then Option.map (fun n : Nat => -(n : Int)) (digitsValue ds)
    else if c = '+' then Option.map (fun n : Nat => (n : Int)) (digitsValue ds)
    else Option.map (fun n : Nat => (n : Int)) (digitsValue (c :: ds))

/-- An integer of the signed 64-bit range. -/
def inInt64Range (v : Int) : Prop := -(2 ^ 63) ≤ v ∧ v < 2 ^ 63

instance (v : Int) : Decidable (inInt64Range v) := by
  unfold inInt64Range
  exact inferInstance

/-- A token is a valid base-10 signed 64-bit integer. -/
def validInt64 (tok : String) : Bool :=
  match decimalValue tok with
  | some v => decide (inInt64Range v)
  | none => false

/-- A token is a base-10 integer of the signed 64-bit range and `v` is its
exact decimal value. -/
def writesInt64 (tok : String) (v : Int) : Prop :=
  decimalValue tok = some v ∧ inInt64Range v

/-- The positions of the tokens that `parseSlab` converts. -/
def targets : List Nat := [1, 2, 3, 4, 5, 8, 9, 10, 13, 14, 15]

/-- The record of a row with 2^53 + 1 active objects. -/
def roundedRecord : slabInfo :=
  { name := "kmalloc_64", objActive := 9007199254740993, objNum := 128, objSize := 64,
    objPerSlab := 64, pagesPerSlab := 1, limit := 0, batch := 0, sharedFactor := 0,
    slabActive := 2, slabNum := 2, sharedAvail := 0 }

/-- The row of the specification's end-to-end example. -/
def exampleRow : String :=
  "ext4_inode_cache:example 120 140 712 11 2 : tunables 54 27 0 : slabdata 10 10 0"

/-- The record of the specification's end-to-end example. -/
def exampleRecord : slabInfo :=
  { name := "ext4_inode_cache_example", objActive := 120, objNum := 140, objSize := 712,
    objPerSlab := 11, pagesPerSlab := 2, limit := 54, batch := 27, sharedFactor := 0,
    slabActive := 10, slabNum := 10, sharedAvail := 0 }

/-- The measurements of one pass as the specification describes them: the
lines the filter accepts, in file order, each parsed, the rows that fail to
parse left out, and the measurements of the remaining records
concatenated. -/
def collectSpec (c : slabCollector) (lines : List String) : List Metric :=
  (((lines.filter (fun line => c.shouldParse line)).filterMap
    (fun line => (parseSlab line).toOption)).map slabInfo.metrics).flatten

/-- The characters of the four replacements of `formatName`, in the order
the code applies them. -/
def replacedChars : List Char := [':', '.', '-', '/']

/-- The replacements of the characters of `order` by an underscore, applied
one after the other in the order of the list. -/
def replaceInOrder (order : List Char) (x : String) : String :=
  order.foldl (fun s old => Replace s old '_') x

/-- The last character of a character list is a whitespace character, with
`d` the answer for the empty list (the character before the list, if it is
the rest of a longer one). -/
def lastSpaceFrom (d : Bool) : List Char → Bool
  | [] => d
  | c :: cs => lastSpaceFrom (isSpace c) cs

/-! ## Splitting a line -/

theorem splitWhere_ne_nil (p : Char → Bool) (l : List Char) : splitWhere p l ≠ [] := by
  cases l with
  | nil => simp [splitWhere]
  | cons c cs =>
    unfold splitWhere
    split
    · simp
    · cases splitWhere p cs <;> simp [consHead]

theorem isSpace_blank_of_eq {c : Char} (h : (c == ' ') = true) : isSpace c = true := by
  have hc : c = ' ' := by simpa using h
  subst hc
  decide

theorem fields_nil (b : Bool) :
    splitWhere (fun c => c == ' ') (replaceRuns b []) = [[]] := by
  simp [replaceRuns, splitWhere]

theorem fields_cons_char (b : Bool) (c : Char) (cs : List Char) (h : isSpace c = false) :
    splitWhere (fun c => c == ' ') (replaceRuns b (c :: cs)) =
      consHead c (splitWhere (fun c => c == ' ') (replaceRuns false cs)) := by
  have hc : (c == ' ') = false := by
    cases hb : (c == ' ')
    · rfl
    · rw [isSpace_blank_of_eq hb] at h
      exact absurd h (by decide)
  simp only [replaceRuns, h, splitWhere, hc]
  simp

theorem fields_cons_space_false (c : Char) (cs : List Char) (h : isSpace c = true) :
    splitWhere (fun c => c == ' ') (replaceRuns false (c :: cs)) =
      [] :: splitWhere (fun c => c == ' ') (replaceRuns true cs) := by
  simp [replaceRuns, h, splitWhere]

theorem fields_cons_space_true (c : Char) (cs : List Char) (h : isSpace c = true) :
    splitWhere (fun c => c == ' ') (replaceRuns true (c :: cs)) =
      splitWhere (fun c => c == ' ') (replaceRuns true cs) := by
  simp [replaceRuns, h]

/-- The elements of the split of the collapsed line and the pieces between
whitespace characters of the line itself: the same first element and, once
the empty ones are dropped, the same remaining ones. -/
theorem fields_vs_pieces (l : List Char) :
    (∃ h t₁ t₂, splitWhere (fun c => c == ' ') (replaceRuns false l) = h :: t₁ ∧
      splitWhere isSpace l = h :: t₂ ∧
      t₁.filter (fun t => !t.isEmpty) = t₂.filter (fun t => !t.isEmpty)) ∧
    (splitWhere (fun c => c == ' ') (replaceRuns true l)).filter (fun t => !t.isEmpty) =
      (splitWhere isSpace l).filter (fun t => !t.isEmpty) := by
  induction l with
  | nil =>
    refine ⟨⟨[], [], [], ?_, ?_, rfl⟩, ?_⟩
    · exact fields_nil false
    · simp [splitWhere]
    · rw [fields_nil]; simp [splitWhere]
  | cons c cs ih =>
    obtain ⟨⟨h, t₁, t₂, h₁, h₂, h₃⟩, ih₂⟩ := ih
    cases hc : isSpace c
    · refine ⟨⟨c :: h, t₁, t₂, ?_, ?_, h₃⟩, ?_⟩
      · rw [fields_cons_char false c cs hc, h₁]; rfl
      · simp only [splitWhere, hc, h₂]; rfl
      · rw [fields_cons_char true c cs hc, h₁]
        simp only [splitWhere, hc, h₂]
        simp [consHead, h₃]
    · refine ⟨⟨[], _, _, fields_cons_space_false c cs hc, ?_, ih₂⟩, ?_⟩
      · simp [splitWhere, hc]
      · rw [fields_cons_space_true c cs hc, ih₂]
        simp [splitWhere, hc]

/-- Without trailing whitespace no element of the split is empty, the first
one apart, which is empty exactly for leading whitespace. -/
theorem fields_nonempty (l : List Char) (hne : l ≠ []) (hl : lastIsSpace l = false) :
    (∀ t ∈ splitWhere (fun c => c == ' ') (replaceRuns true l), t ≠ []) ∧
    (∀ t ∈ (splitWhere (fun c => c == ' ') (replaceRuns false l)).tail, t ≠ []) ∧
    (∀ c cs, l = c :: cs → isSpace c = false →
      ∀ t ∈ splitWhere (fun c => c == ' ') (replaceRuns false l), t ≠ []) := by
  induction l with
  | nil => exact absurd rfl hne
  | cons c cs ih =>
    cases cs with
    | nil =>
      have hc : isSpace c = false := by simpa [lastIsSpace] using hl
      have e : ∀ b, splitWhere (fun c => c == ' ') (replaceRuns b [c]) = [[c]] := by
        intro b
        rw [fields_cons_char b c [] hc, fields_nil]; rfl
      refine ⟨?_, ?_, ?_⟩
      · rw [e]; simp
      · rw [e]; simp
      · intro _ _ _ _
        rw [e]; simp
    | cons c' cs' =>
      have hl' : lastIsSpace (c' :: cs') = false := by simpa [lastIsSpace] using hl
      obtain ⟨ih₁, ih₂, _⟩ := ih (by simp) hl'
      cases hc : isSpace c
      · have key : ∀ b, ∀ t ∈ splitWhere (fun c => c == ' ') (replaceRuns b (c :: c' :: cs')),
            t ≠ [] := by
          intro b t ht
          rw [fields_cons_char b c _ hc] at ht
          cases hf : splitWhere (fun c => c == ' ') (replaceRuns false (c' :: cs')) with
          | nil => exact absurd hf (splitWhere_ne_nil _ _)
          | cons w ws =>
            rw [hf] at ht ih₂
            simp only [consHead, List.mem_cons] at ht
            rcases ht with rfl | ht
            · simp
            · exact ih₂ t (by simpa using ht)
        refine ⟨key true, ?_, fun _ _ _ _ => key false⟩
        intro t ht
        exact key false t (List.mem_of_mem_tail ht)
      · refine ⟨?_, ?_, ?_⟩
        · rw [fields_cons_space_true c _ hc]; exact ih₁
        · rw [fields_cons_space_false c _ hc]; exact ih₁
        · intro d ds hd hsp
          injection hd with hd₁ hd₂
          subst hd₁
          rw [hc] at hsp
          exact absurd hsp (by decide)

/-- A line without leading or trailing whitespace splits, once collapsed,
into its tokens. -/
theorem Split_eq_tokens (line : String) (hne : line.data ≠ [])
    (hs : startsWithSpace line = false) (he : endsWithSpace line = false) :
    Split (spaceReplaceAll line) = tokens line := by
  unfold Split tokens spaceReplaceAll
  congr 1
  show splitWhere (fun c => c == ' ') (replaceRuns false line.data) = _
  obtain ⟨⟨h, t₁, t₂, h₁, h₂, h₃⟩, _⟩ := fields_vs_pieces line.data
  obtain ⟨_, _, hall⟩ := fields_nonempty line.data hne he
  cases hd : line.data with
  | nil => exact absurd hd hne
  | cons c cs =>
    have hc : isSpace c = false := by
      simpa [startsWithSpace, hd] using hs
    rw [hd] at h₁ h₂ hall
    have hall' := hall c cs rfl hc
    have hfil : (splitWhere (fun c => c == ' ') (replaceRuns false (c :: cs))).filter
        (fun t => !t.isEmpty) = splitWhere (fun c => c == ' ') (replaceRuns false (c :: cs)) := by
      rw [List.filter_eq_self]
      intro t ht
      have := hall' t ht
      cases t with
      | nil => exact absurd rfl this
      | cons _ _ => rfl
    rw [← hfil, h₁, h₂]
    rw [h₁] at hall'
    have hh : h ≠ [] := hall' h (by simp)
    cases h with
    | nil => exact absurd rfl hh
    | cons a as => simp [List.filter, h₃]

/-! ## strconv.ParseInt against the decimal value -/

theorem digitOf_digit (c : Char) (h : isDecimalDigit c = true) :
    digitOf c = some (c.toNat - '0'.toNat) ∧ c.toNat - '0'.toNat < 10 := by
  have h0 : '0'.toNat = 48 := rfl
  have h9 : '9'.toNat = 57 := rfl
  simp only [isDecimalDigit, decide_eq_true_eq] at h
  refine ⟨by simp only [digitOf, if_pos h], ?_⟩
  rw [h0, h9] at h
  rw [h0]
  omega

theorem digitOf_other (c : Char) (h : isDecimalDigit c = false) :
    digitOf c = none ∨ ∃ d, digitOf c = some d ∧ d ≥ 10 := by
  simp only [isDecimalDigit, decide_eq_false_iff_not] at h
  unfold digitOf
  rw [if_neg h]
  split
  · exact Or.inr ⟨_, rfl, by omega⟩
  · exact Or.inl rfl

theorem digitsFold_ge (ds : List Char) (n : Nat) : n ≤ digitsFold n ds := by
  induction ds generalizing n with
  | nil => exact Nat.le_refl _
  | cons c cs ih =>
    have := ih (10 * n + (c.toNat - '0'.toNat))
    simp only [digitsFold, List.foldl_cons] at this ⊢
    omega

theorem parseUintLoop_digits (ds : List Char) (n : Nat) (hn : n < 2 ^ 64)
    (hd : ds.all isDecimalDigit = true) :
    parseUintLoop ds n =
      if digitsFold n ds < 2 ^ 64 then (digitsFold n ds, none)
      else (maxUint64, some .ErrRange) := by
  induction ds generalizing n with
  | nil =>
    simp only [parseUintLoop, digitsFold, List.foldl_nil, if_pos hn]
  | cons c cs ih =>
    simp only [List.all_cons, Bool.and_eq_true] at hd
    obtain ⟨hdig, hlt⟩ := digitOf_digit c hd.1
    have hge := digitsFold_ge cs (10 * n + (c.toNat - '0'.toNat))
    have hfold : digitsFold n (c :: cs) = digitsFold (10 * n + (c.toNat - '0'.toNat)) cs := rfl
    rw [hfold]
    simp only [parseUintLoop, hdig]
    rw [if_neg (by omega)]
    by_cases hcut : n ≥ maxUint64 / 10 + 1
    · rw [if_pos hcut]
      have : maxUint64 / 10 + 1 = 1844674407370955162 := by decide
      rw [this] at hcut
      rw [if_neg (by omega)]
    · rw [if_neg hcut]
      have hc : maxUint64 / 10 + 1 = 1844674407370955162 := by decide
      rw [hc] at hcut
      have hm : maxUint64 = 18446744073709551615 := by decide
      have h10 : n * 10 % 2 ^ 64 = n * 10 := Nat.mod_eq_of_lt (by omega)
      simp only [h10]
      by_cases hov : n * 10 + (c.toNat - '0'.toNat) < 2 ^ 64
      · have h1 : (n * 10 + (c.toNat - '0'.toNat)) % 2 ^ 64 = n * 10 + (c.toNat - '0'.toNat) :=
          Nat.mod_eq_of_lt hov
        rw [h1, if_neg (by rw [hm]; omega)]
        have e : n * 10 + (c.toNat - '0'.toNat) = 10 * n + (c.toNat - '0'.toNat) := by omega
        rw [e] at hov ⊢
        exact ih _ hov hd.2
      · have h1 : (n * 10 + (c.toNat - '0'.toNat)) % 2 ^ 64 < n * 10 := by omega
        rw [if_pos (Or.inl h1), if_neg (by omega)]

theorem parseUintLoop_other (ds : List Char) (n : Nat)
    (hd : ds.all isDecimalDigit = false) :
    parseUintLoop ds n = (0, some .ErrSyntax) ∨
      parseUintLoop ds n = (maxUint64, some .ErrRange) := by
  induction ds generalizing n with
  | nil => simp at hd
  | cons c cs ih =>
    cases hc : isDecimalDigit c
    · rcases digitOf_other c hc with h | ⟨d, h, hd10⟩
      · left; simp only [parseUintLoop, h]
      · left; simp only [parseUintLoop, h, if_pos hd10]
    · have hcs : cs.all isDecimalDigit = false := by
        simpa [List.all_cons, hc] using hd
      obtain ⟨hdig, hlt⟩ := digitOf_digit c hc
      simp only [parseUintLoop, hdig]
      rw [if_neg (by omega)]
      split
      · right; rfl
      · split
        · right; rfl
        · exact ih _ hcs

theorem ParseUint_digits (ds : List Char) (hne : ds ≠ [])
    (hd : ds.all isDecimalDigit = true) :
    ParseUint ⟨ds⟩ =
      if digitsFold 0 ds < 2 ^ 64 then (digitsFold 0 ds, none)
      else (maxUint64, some ⟨"ParseUint", ⟨ds⟩, .ErrRange⟩) := by
  have hs : (String.mk ds) ≠ "" := fun h => hne (congrArg String.data h)
  unfold ParseUint
  rw [if_neg hs, parseUintLoop_digits ds 0 (by decide) hd]
  by_cases hlt : digitsFold 0 ds < 2 ^ 64
  · rw [if_pos hlt, if_pos hlt]
  · rw [if_neg hlt, if_neg hlt]

theorem ParseUint_other (ds : List Char)
    (hd : ds = [] ∨ ds.all isDecimalDigit = false) :
    ParseUint ⟨ds⟩ = (0, some ⟨"ParseUint", ⟨ds⟩, .ErrSyntax⟩) ∨
      ParseUint ⟨ds⟩ = (maxUint64, some ⟨"ParseUint", ⟨ds⟩, .ErrRange⟩) := by
  by_cases hne : ds = []
  · subst hne
    left; rfl
  · have hs : (String.mk ds) ≠ "" := fun h => hne (congrArg String.data h)
    have hall : ds.all isDecimalDigit = false := by
      rcases hd with h | h
      · exact absurd h hne
      · exact h
    unfold ParseUint
    rw [if_neg hs]
    rcases parseUintLoop_other ds 0 hall with h | h
    · left; rw [h]
    · right; rw [h]

theorem ParseInt_of_value (c : Char) (rest : List Char) (un : Nat)
    (h : ParseUint (if (c == '+' || c == '-') = true then ⟨rest⟩ else ⟨c :: rest⟩) = (un, none)) :
    ParseInt ⟨c :: rest⟩ =
      if (!(c == '-') && decide (un ≥ 2 ^ 63)) = true then
        .error (rangeError "ParseInt" ⟨c :: rest⟩)
      else if ((c == '-') && decide (un > 2 ^ 63)) = true then
        .error (rangeError "ParseInt" ⟨c :: rest⟩)
      else .ok (if (c == '-') = true then negInt64 (toInt64 un) else toInt64 un) := by
  simp only [ParseInt, h]

theorem ParseInt_of_error (c : Char) (rest : List Char) (un : Nat) (f m : String) (k : ConvErr)
    (hk : k = .ErrRange → un = maxUint64)
    (h : ParseUint (if (c == '+' || c == '-') = true then ⟨rest⟩ else ⟨c :: rest⟩)
      = (un, some ⟨f, m, k⟩)) :
    ParseInt ⟨c :: rest⟩ = .error ⟨"ParseInt", ⟨c :: rest⟩, k⟩ := by
  cases k with
  | ErrSyntax => simp only [ParseInt, h]
  | ErrRange =>
    have hu := hk rfl
    subst hu
    simp only [ParseInt, h]
    cases hc : (c == '-')
    · rw [if_pos (by decide)]; rfl
    · rw [if_neg (by decide), if_pos (by decide)]; rfl

theorem digitsValue_some (ds : List Char) (n : Nat) (h : digitsValue ds = some n) :
    ds ≠ [] ∧ ds.all isDecimalDigit = true ∧ n = digitsFold 0 ds := by
  unfold digitsValue at h
  split at h
  · rename_i hc
    injection h with h
    exact ⟨hc.1, hc.2, h.symm⟩
  · exact absurd h (by simp)

theorem digitsValue_none (ds : List Char) (h : digitsValue ds = none) :
    ds = [] ∨ ds.all isDecimalDigit = false := by
  unfold digitsValue at h
  split at h
  · exact absurd h (by simp)
  · rename_i hc
    by_cases hne : ds = []
    · exact Or.inl hne
    · right
      cases hall : ds.all isDecimalDigit
      · rfl
      · exact absurd ⟨hne, hall⟩ hc

/-- The characters `ParseInt` hands to `ParseUint`: the token without its
sign. -/
theorem decimalValue_cons (c : Char) (rest : List Char) :
    ∃ body : List Char,
      (if (c == '+' || c == '-') = true then String.mk rest else String.mk (c :: rest))
        = String.mk body ∧
      decimalValue ⟨c :: rest⟩ =
        Option.map (fun n : Nat => if (c == '-') = true then -(n : Int) else (n : Int))
          (digitsValue body) := by
  by_cases hm : c = '-'
  · subst hm
    exact ⟨rest, rfl, by simp [decimalValue]⟩
  · by_cases hp : c = '+'
    · subst hp
      refine ⟨rest, rfl, ?_⟩
      simp only [decimalValue]
      rw [if_pos trivial]
      rfl
    · refine ⟨c :: rest, ?_, ?_⟩
      · rw [if_neg (by simp [hm, hp])]
      · simp only [decimalValue]
        rw [if_neg hm, if_neg hp]
        simp [hm]

theorem toInt64_small (n : Nat) (h : n < 2 ^ 63) : toInt64 n = (n : Int) := by
  unfold toInt64
  have : n % 2 ^ 64 = n := Nat.mod_eq_of_lt (by omega)
  rw [this, if_pos h]

theorem toInt64_min : toInt64 (2 ^ 63) = -(2 ^ 63) := by decide

/-- What `ParseInt` returns on a non-empty token, by the decimal value of the
token: the value when it lies in the signed 64-bit range, a range error when
it does not, and a syntax or range error when the token has no decimal
value. -/
theorem ParseInt_cons (c : Char) (rest : List Char) :
    (∀ v, decimalValue ⟨c :: rest⟩ = some v →
      ParseInt ⟨c :: rest⟩ =
        if inInt64Range v then .ok v else .error ⟨"ParseInt", ⟨c :: rest⟩, .ErrRange⟩) ∧
    (decimalValue ⟨c :: rest⟩ = none →
      ∃ k, ParseInt ⟨c :: rest⟩ = .error ⟨"ParseInt", ⟨c :: rest⟩, k⟩) := by
  obtain ⟨body, hbody, hval⟩ := decimalValue_cons c rest
  rw [hval]
  constructor
  · intro v hv
    cases hdv : digitsValue body with
    | none => rw [hdv] at hv; exact absurd hv (by simp)
    | some n =>
      rw [hdv] at hv
      replace hv : (if (c == '-') = true then -(n : Int) else (n : Int)) = v :=
        Option.some.inj hv
      obtain ⟨hne, hall, hn⟩ := digitsValue_some body n hdv
      have hu := ParseUint_digits body hne hall
      rw [← hn, ← hbody] at hu
      by_cases hlt : n < 2 ^ 64
      · rw [if_pos hlt] at hu
        rw [ParseInt_of_value c rest n hu]
        cases hc : (c == '-')
        · rw [hc] at hv
          simp only [Bool.false_eq_true, if_false] at hv
          subst hv
          simp only [Bool.not_false, Bool.true_and, Bool.false_and, Bool.false_eq_true, if_false,
            decide_eq_true_eq]
          by_cases h63 : n ≥ 2 ^ 63
          · rw [if_pos h63, if_neg (by unfold inInt64Range; omega)]
            rfl
          · rw [if_neg h63, if_pos (by unfold inInt64Range; omega), toInt64_small n (by omega)]
        · rw [hc] at hv
          simp only [if_true] at hv
          subst hv
          simp only [Bool.not_true, Bool.true_and, Bool.false_and, Bool.false_eq_true, if_false,
            if_true, decide_eq_true_eq]
          by_cases h63 : n > 2 ^ 63
          · rw [if_pos h63, if_neg (by unfold inInt64Range; omega)]
            rfl
          · rw [if_neg h63, if_pos (by unfold inInt64Range; omega)]
            by_cases he : n = 2 ^ 63
            · subst he
              rw [toInt64_min]
              simp [negInt64]
            · rw [toInt64_small n (by omega)]
              unfold negInt64
              rw [if_neg (by omega)]
      · rw [if_neg hlt] at hu
        rw [ParseInt_of_error c rest _ _ _ .ErrRange (fun _ => rfl) hu]
        have hout : ¬ inInt64Range v := by
          unfold inInt64Range
          split at hv <;> omega
        rw [if_neg hout]
  · intro hnone
    have hdv : digitsValue body = none := by
      cases h : digitsValue body with
      | none => rfl
      | some n => rw [h] at hnone; exact absurd hnone (by simp)
    have hu := ParseUint_other body (digitsValue_none body hdv)
    rw [← hbody] at hu
    rcases hu with hu | hu
    · exact ⟨.ErrSyntax, ParseInt_of_error c rest _ _ _ .ErrSyntax (fun h => by cases h) hu⟩
    · exact ⟨.ErrRange, ParseInt_of_error c rest _ _ _ .ErrRange (fun _ => rfl) hu⟩

/-- A token with a decimal value of the signed 64-bit range is converted to
that value. -/
theorem ParseInt_valid (tok : String) (v : Int) (h : decimalValue tok = some v)
    (hr : inInt64Range v) : ParseInt tok = .ok v := by
  obtain ⟨l⟩ := tok
  cases l with
  | nil => exact absurd h (by simp [decimalValue])
  | cons c rest => rw [(ParseInt_cons c rest).1 v h, if_pos hr]

/-- A token that is not a valid base-10 signed 64-bit integer is refused with
a conversion error naming `ParseInt` and the token. -/
theorem ParseInt_invalid (tok : String) (h : validInt64 tok = false) :
    ∃ k, ParseInt tok = .error ⟨"ParseInt", tok, k⟩ := by
  obtain ⟨l⟩ := tok
  cases l with
  | nil => exact ⟨.ErrSyntax, rfl⟩
  | cons c rest =>
    unfold validInt64 at h
    cases hd : decimalValue ⟨c :: rest⟩ with
    | none => exact (ParseInt_cons c rest).2 hd
    | some v =>
      rw [hd] at h
      have hr : ¬ inInt64Range v := by simpa using h
      exact ⟨.ErrRange, by rw [(ParseInt_cons c rest).1 v hd, if_neg hr]⟩

/-- A valid token is converted: the converse of `ParseInt_invalid`. -/
theorem ParseInt_of_validInt64 (tok : String) (h : validInt64 tok = true) :
    ∃ v, decimalValue tok = some v ∧ inInt64Range v ∧ ParseInt tok = .ok v := by
  unfold validInt64 at h
  cases hd : decimalValue tok with
  | none => rw [hd] at h; exact absurd h (by simp)
  | some v =>
    rw [hd] at h
    have hr : inInt64Range v := by simpa using h
    exact ⟨v, rfl, hr, ParseInt_valid tok v hd hr⟩

/-! ## The row parser -/

theorem bind_parseField_ok {α : Type} (tok : String) (v : Int) (f : Int → Except GoError α)
    (h : ParseInt tok = .ok v) : (parseField tok >>= f) = f v := by
  simp only [parseField, h]
  rfl

theorem bind_parseField_error {α : Type} (tok : String) (e : NumError)
    (f : Int → Except GoError α) (h : ParseInt tok = .error e) :
    (parseField tok >>= f) = .error (.numError e) := by
  simp only [parseField, h]
  rfl

theorem parseSlab_shape_error (line : String)
    (h : (Split (spaceReplaceAll line)).length ≠ 16) :
    parseSlab line = .error (.errorf ("unable to parse: " ++ line)) := by
  unfold parseSlab
  simp only [if_pos h]

theorem tokens_of_empty (line : String) (h : line.data = []) : tokens line = [] := by
  simp [tokens, h, splitWhere]

/-- C1, as stated, fails: the row of the specification followed by one space
has sixteen tokens, valid integers at every converted position, and is
refused with the shape error. -/
theorem parseSlab_refuses_row_before_space :
    tokens "ext4_inode_cache:example 120 140 712 11 2 : tunables 54 27 0 : slabdata 10 10 0 "
      = ["ext4_inode_cache:example", "120", "140", "712", "11", "2", ":", "tunables", "54",
         "27", "0", ":", "slabdata", "10", "10", "0"] ∧
    (∀ i ∈ targets, validInt64 (index (tokens
      "ext4_inode_cache:example 120 140 712 11 2 : tunables 54 27 0 : slabdata 10 10 0 ") i)
        = true) ∧
    parseSlab "ext4_inode_cache:example 120 140 712 11 2 : tunables 54 27 0 : slabdata 10 10 0 "
      = .error (.errorf
        "unable to parse: ext4_inode_cache:example 120 140 712 11 2 : tunables 54 27 0 : slabdata 10 10 0 ") := by
  decide

/-- C1, amended: a line made of exactly sixteen whitespace-separated tokens,
with no whitespace before the first token or after the last, whose tokens 1,
2, 3, 4, 5, 8, 9, 10, 13, 14, 15 are base-10 integers of the signed 64-bit
range is parsed into the record that holds the normalised token 0 as its name
and the exact decimal values of those tokens, in that order; the tokens 0, 6,
7, 11, 12 are arbitrary and the integer fields do not depend on them. -/
theorem parseSlab_valid_row (line : String)
    (t0 t1 t2 t3 t4 t5 t6 t7 t8 t9 t10 t11 t12 t13 t14 t15 : String)
    (v1 v2 v3 v4 v5 v8 v9 v10 v13 v14 v15 : Int)
    (hs : startsWithSpace line = false) (he : endsWithSpace line = false)
    (ht : tokens line = [t0, t1, t2, t3, t4, t5, t6, t7, t8, t9, t10, t11, t12, t13, t14, t15])
    (h1 : writesInt64 t1 v1) (h2 : writesInt64 t2 v2) (h3 : writesInt64 t3 v3)
    (h4 : writesInt64 t4 v4) (h5 : writesInt64 t5 v5) (h8 : writesInt64 t8 v8)
    (h9 : writesInt64 t9 v9) (h10 : writesInt64 t10 v10) (h13 : writesInt64 t13 v13)
    (h14 : writesInt64 t14 v14) (h15 : writesInt64 t15 v15) :
    parseSlab line = .ok
      { name := formatName t0, objActive := v1, objNum := v2, objSize := v3, objPerSlab := v4,
        pagesPerSlab := v5, limit := v8, batch := v9, sharedFactor := v10, slabActive := v13,
        slabNum := v14, sharedAvail := v15 } := by
  have hne : line.data ≠ [] := by
    intro h
    rw [tokens_of_empty line h] at ht
    exact absurd ht (by simp)
  have hsplit := Split_eq_tokens line hne hs he
  rw [ht] at hsplit
  unfold parseSlab
  simp only [hsplit]
  rw [if_neg (by simp)]
  simp only [index, List.getD_cons_zero, List.getD_cons_succ]
  rw [bind_parseField_ok _ _ _ (ParseInt_valid t1 v1 h1.1 h1.2),
    bind_parseField_ok _ _ _ (ParseInt_valid t2 v2 h2.1 h2.2),
    bind_parseField_ok _ _ _ (ParseInt_valid t3 v3 h3.1 h3.2),
    bind_parseField_ok _ _ _ (ParseInt_valid t4 v4 h4.1 h4.2),
    bind_parseField_ok _ _ _ (ParseInt_valid t5 v5 h5.1 h5.2),
    bind_parseField_ok _ _ _ (ParseInt_valid t8 v8 h8.1 h8.2),
    bind_parseField_ok _ _ _ (ParseInt_valid t9 v9 h9.1 h9.2),
    bind_parseField_ok _ _ _ (ParseInt_valid t10 v10 h10.1 h10.2),
    bind_parseField_ok _ _ _ (ParseInt_valid t13 v13 h13.1 h13.2),
    bind_parseField_ok _ _ _ (ParseInt_valid t14 v14 h14.1 h14.2),
    bind_parseField_ok _ _ _ (ParseInt_valid t15 v15 h15.1 h15.2)]
  rfl

/-- C1 amended, on the row of the specification: it is parsed into the record named
`ext4_inode_cache_example` with the fields 120, 140, 712, 11, 2, 54, 27, 0,
10, 10, 0. -/
theorem parseSlab_valid_row_example :
    parseSlab "ext4_inode_cache:example 120 140 712 11 2 : tunables 54 27 0 : slabdata 10 10 0"
      = .ok { name := "ext4_inode_cache_example", objActive := 120, objNum := 140,
              objSize := 712, objPerSlab := 11, pagesPerSlab := 2, limit := 54, batch := 27,
              sharedFactor := 0, slabActive := 10, slabNum := 10, sharedAvail := 0 } :=
  parseSlab_valid_row
    "ext4_inode_cache:example 120 140 712 11 2 : tunables 54 27 0 : slabdata 10 10 0"
    "ext4_inode_cache:example" "120" "140" "712" "11" "2" ":" "tunables" "54" "27" "0" ":"
    "slabdata" "10" "10" "0" 120 140 712 11 2 54 27 0 10 10 0
    (by decide) (by decide) (by decide)
    ⟨by decide, by decide⟩ ⟨by decide, by decide⟩ ⟨by decide, by decide⟩ ⟨by decide, by decide⟩
    ⟨by decide, by decide⟩ ⟨by decide, by decide⟩ ⟨by decide, by decide⟩ ⟨by decide, by decide⟩
    ⟨by decide, by decide⟩ ⟨by decide, by decide⟩ ⟨by decide, by decide⟩

/-- C2, as stated, fails: a line of fifteen tokens after a leading space
passes the shape check and is parsed into a record with an empty name. -/
theorem parseSlab_accepts_fifteen_tokens :
    (tokens " 1 2 3 4 5 : tunables 54 27 0 : slabdata 10 10 0").length ≠ 16 ∧
    parseSlab " 1 2 3 4 5 : tunables 54 27 0 : slabdata 10 10 0" = .ok
      { name := "", objActive := 1, objNum := 2, objSize := 3, objPerSlab := 4,
        pagesPerSlab := 5, limit := 54, batch := 27, sharedFactor := 0, slabActive := 10,
        slabNum := 10, sharedAvail := 0 } := by
  decide

/-- C3: on a line that passes the sixteen-element shape check, when the
tokens at all eleven converted positions are valid base-10 signed 64-bit
integers a record is returned; when the token at a converted position is not
valid and those at the lower converted positions are, no record is returned
and the error is the conversion error `ParseInt` gives for that token. -/
theorem parseSlab_conversion (line : String)
    (hlen : (Split (spaceReplaceAll line)).length = 16) :
    ((∀ i ∈ targets, validInt64 (index (Split (spaceReplaceAll line)) i) = true) →
      ∃ r, parseSlab line = .ok r) ∧
    (∀ i ∈ targets, validInt64 (index (Split (spaceReplaceAll line)) i) = false →
      (∀ j ∈ targets, j < i → validInt64 (index (Split (spaceReplaceAll line)) j) = true) →
      ∃ k, ParseInt (index (Split (spaceReplaceAll line)) i)
          = .error ⟨"ParseInt", index (Split (spaceReplaceAll line)) i, k⟩ ∧
        parseSlab line
          = .error (.numError ⟨"ParseInt", index (Split (spaceReplaceAll line)) i, k⟩) ∧
        ∀ r, parseSlab line ≠ .ok r) := by
  have hshape : ¬ (Split (spaceReplaceAll line)).length ≠ 16 := by simp [hlen]
  constructor
  · intro hall
    obtain ⟨w1, -, -, e1⟩ := ParseInt_of_validInt64 _ (hall 1 (by decide))
    obtain ⟨w2, -, -, e2⟩ := ParseInt_of_validInt64 _ (hall 2 (by decide))
    obtain ⟨w3, -, -, e3⟩ := ParseInt_of_validInt64 _ (hall 3 (by decide))
    obtain ⟨w4, -, -, e4⟩ := ParseInt_of_validInt64 _ (hall 4 (by decide))
    obtain ⟨w5, -, -, e5⟩ := ParseInt_of_validInt64 _ (hall 5 (by decide))
    obtain ⟨w8, -, -, e8⟩ := ParseInt_of_validInt64 _ (hall 8 (by decide))
    obtain ⟨w9, -, -, e9⟩ := ParseInt_of_validInt64 _ (hall 9 (by decide))
    obtain ⟨w10, -, -, e10⟩ := ParseInt_of_validInt64 _ (hall 10 (by decide))
    obtain ⟨w13, -, -, e13⟩ := ParseInt_of_validInt64 _ (hall 13 (by decide))
    obtain ⟨w14, -, -, e14⟩ := ParseInt_of_validInt64 _ (hall 14 (by decide))
    obtain ⟨w15, -, -, e15⟩ := ParseInt_of_validInt64 _ (hall 15 (by decide))
    refine ⟨⟨formatName (index (Split (spaceReplaceAll line)) 0), w1, w2, w3, w4, w5, w8, w9,
      w10, w13, w14, w15⟩, ?_⟩
    unfold parseSlab
    simp only [if_neg hshape]
    rw [bind_parseField_ok _ _ _ e1,
      bind_parseField_ok _ _ _ e2,
      bind_parseField_ok _ _ _ e3,
      bind_parseField_ok _ _ _ e4,
      bind_parseField_ok _ _ _ e5,
      bind_parseField_ok _ _ _ e8,
      bind_parseField_ok _ _ _ e9,
      bind_parseField_ok _ _ _ e10,
      bind_parseField_ok _ _ _ e13,
      bind_parseField_ok _ _ _ e14,
      bind_parseField_ok _ _ _ e15]
    rfl
  intro i hi hbad hprev
  obtain ⟨k, hk⟩ := ParseInt_invalid _ hbad
  suffices h : parseSlab line
      = .error (.numError ⟨"ParseInt", index (Split (spaceReplaceAll line)) i, k⟩) by
    refine ⟨k, hk, h, ?_⟩
    intro r hr
    rw [h] at hr
    cases hr
  unfold parseSlab
  simp only [if_neg hshape]
  simp only [targets, List.mem_cons, List.mem_singleton, List.not_mem_nil, or_false] at hi
  rcases hi with rfl | rfl | rfl | rfl | rfl | rfl | rfl | rfl | rfl | rfl | rfl
  · -- position 1
    rw [bind_parseField_error _ _ _ hk]
  · -- position 2
    obtain ⟨w1, -, -, e1⟩ := ParseInt_of_validInt64 _ (hprev 1 (by decide) (by decide))
    rw [bind_parseField_ok _ _ _ e1, bind_parseField_error _ _ _ hk]
  · -- position 3
    obtain ⟨w1, -, -, e1⟩ := ParseInt_of_validInt64 _ (hprev 1 (by decide) (by decide))
    obtain ⟨w2, -, -, e2⟩ := ParseInt_of_validInt64 _ (hprev 2 (by decide) (by decide))
    rw [bind_parseField_ok _ _ _ e1, bind_parseField_ok _ _ _ e2, bind_parseField_error _ _ _ hk]
  · -- position 4
    obtain ⟨w1, -, -, e1⟩ := ParseInt_of_validInt64 _ (hprev 1 (by decide) (by decide))
    obtain ⟨w2, -, -, e2⟩ := ParseInt_of_validInt64 _ (hprev 2 (by decide) (by decide))
    obtain ⟨w3, -, -, e3⟩ := ParseInt_of_validInt64 _ (hprev 3 (by decide) (by decide))
    rw [bind_parseField_ok _ _ _ e1, bind_parseField_ok _ _ _ e2, bind_parseField_ok _ _ _ e3, bind_parseField_error _ _ _ hk]
  · -- position 5
    obtain ⟨w1, -, -, e1⟩ := ParseInt_of_validInt64 _ (hprev 1 (by decide) (by decide))
    obtain ⟨w2, -, -, e2⟩ := ParseInt_of_validInt64 _ (hprev 2 (by decide) (by decide))
    obtain ⟨w3, -, -, e3⟩ := ParseInt_of_validInt64 _ (hprev 3 (by decide) (by decide))
    obtain ⟨w4, -, -, e4⟩ := ParseInt_of_validInt64 _ (hprev 4 (by decide) (by decide))
    rw [bind_parseField_ok _ _ _ e1, bind_parseField_ok _ _ _ e2, bind_parseField_ok _ _ _ e3, bind_parseField_ok _ _ _ e4, bind_parseField_error _ _ _ hk]
  · -- position 8
    obtain ⟨w1, -, -, e1⟩ := ParseInt_of_validInt64 _ (hprev 1 (by decide) (by decide))
    obtain ⟨w2, -, -, e2⟩ := ParseInt_of_validInt64 _ (hprev 2 (by decide) (by decide))
    obtain ⟨w3, -, -, e3⟩ := ParseInt_of_validInt64 _ (hprev 3 (by decide) (by decide))
    obtain ⟨w4, -, -, e4⟩ := ParseInt_of_validInt64 _ (hprev 4 (by decide) (by decide))
    obtain ⟨w5, -, -, e5⟩ := ParseInt_of_validInt64 _ (hprev 5 (by decide) (by decide))
    rw [bind_parseField_ok _ _ _ e1, bind_parseField_ok _ _ _ e2, bind_parseField_ok _ _ _ e3, bind_parseField_ok _ _ _ e4, bind_parseField_ok _ _ _ e5, bind_parseField_error _ _ _ hk]
  · -- position 9
    obtain ⟨w1, -, -, e1⟩ := ParseInt_of_validInt64 _ (hprev 1 (by decide) (by decide))
    obtain ⟨w2, -, -, e2⟩ := ParseInt_of_validInt64 _ (hprev 2 (by decide) (by decide))
    obtain ⟨w3, -, -, e3⟩ := ParseInt_of_validInt64 _ (hprev 3 (by decide) (by decide))
    obtain ⟨w4, -, -, e4⟩ := ParseInt_of_validInt64 _ (hprev 4 (by decide) (by decide))
    obtain ⟨w5, -, -, e5⟩ := ParseInt_of_validInt64 _ (hprev 5 (by decide) (by decide))
    obtain ⟨w8, -, -, e8⟩ := ParseInt_of_validInt64 _ (hprev 8 (by decide) (by decide))
    rw [bind_parseField_ok _ _ _ e1, bind_parseField_ok _ _ _ e2, bind_parseField_ok _ _ _ e3, bind_parseField_ok _ _ _ e4, bind_parseField_ok _ _ _ e5, bind_parseField_ok _ _ _ e8, bind_parseField_error _ _ _ hk]
  · -- position 10
    obtain ⟨w1, -, -, e1⟩ := ParseInt_of_validInt64 _ (hprev 1 (by decide) (by decide))
    obtain ⟨w2, -, -, e2⟩ := ParseInt_of_validInt64 _ (hprev 2 (by decide) (by decide))
    obtain ⟨w3, -, -, e3⟩ := ParseInt_of_validInt64 _ (hprev 3 (by decide) (by decide))
    obtain ⟨w4, -, -, e4⟩ := ParseInt_of_validInt64 _ (hprev 4 (by decide) (by decide))
    obtain ⟨w5, -, -, e5⟩ := ParseInt_of_validInt64 _ (hprev 5 (by decide) (by decide))
    obtain ⟨w8, -, -, e8⟩ := ParseInt_of_validInt64 _ (hprev 8 (by decide) (by decide))
    obtain ⟨w9, -, -, e9⟩ := ParseInt_of_validInt64 _ (hprev 9 (by decide) (by decide))
    rw [bind_parseField_ok _ _ _ e1, bind_parseField_ok _ _ _ e2, bind_parseField_ok _ _ _ e3, bind_parseField_ok _ _ _ e4, bind_parseField_ok _ _ _ e5, bind_parseField_ok _ _ _ e8, bind_parseField_ok _ _ _ e9, bind_parseField_error _ _ _ hk]
  · -- position 13
    obtain ⟨w1, -, -, e1⟩ := ParseInt_of_validInt64 _ (hprev 1 (by decide) (by decide))
    obtain ⟨w2, -, -, e2⟩ := ParseInt_of_validInt64 _ (hprev 2 (by decide) (by decide))
    obtain ⟨w3, -, -, e3⟩ := ParseInt_of_validInt64 _ (hprev 3 (by decide) (by decide))
    obtain ⟨w4, -, -, e4⟩ := ParseInt_of_validInt64 _ (hprev 4 (by decide) (by decide))
    obtain ⟨w5, -, -, e5⟩ := ParseInt_of_validInt64 _ (hprev 5 (by decide) (by decide))
    obtain ⟨w8, -, -, e8⟩ := ParseInt_of_validInt64 _ (hprev 8 (by decide) (by decide))
    obtain ⟨w9, -, -, e9⟩ := ParseInt_of_validInt64 _ (hprev 9 (by decide) (by decide))
    obtain ⟨w10, -, -, e10⟩ := ParseInt_of_validInt64 _ (hprev 10 (by decide) (by decide))
    rw [bind_parseField_ok _ _ _ e1, bind_parseField_ok _ _ _ e2, bind_parseField_ok _ _ _ e3, bind_parseField_ok _ _ _ e4, bind_parseField_ok _ _ _ e5, bind_parseField_ok _ _ _ e8, bind_parseField_ok _ _ _ e9, bind_parseField_ok _ _ _ e10, bind_parseField_error _ _ _ hk]
  · -- position 14
    obtain ⟨w1, -, -, e1⟩ := ParseInt_of_validInt64 _ (hprev 1 (by decide) (by decide))
    obtain ⟨w2, -, -, e2⟩ := ParseInt_of_validInt64 _ (hprev 2 (by decide) (by decide))
    obtain ⟨w3, -, -, e3⟩ := ParseInt_of_validInt64 _ (hprev 3 (by decide) (by decide))
    obtain ⟨w4, -, -, e4⟩ := ParseInt_of_validInt64 _ (hprev 4 (by decide) (by decide))
    obtain ⟨w5, -, -, e5⟩ := ParseInt_of_validInt64 _ (hprev 5 (by decide) (by decide))
    obtain ⟨w8, -, -, e8⟩ := ParseInt_of_validInt64 _ (hprev 8 (by decide) (by decide))
    obtain ⟨w9, -, -, e9⟩ := ParseInt_of_validInt64 _ (hprev 9 (by decide) (by decide))
    obtain ⟨w10, -, -, e10⟩ := ParseInt_of_validInt64 _ (hprev 10 (by decide) (by decide))
    obtain ⟨w13, -, -, e13⟩ := ParseInt_of_validInt64 _ (hprev 13 (by decide) (by decide))
    rw [bind_parseField_ok _ _ _ e1, bind_parseField_ok _ _ _ e2, bind_parseField_ok _ _ _ e3, bind_parseField_ok _ _ _ e4, bind_parseField_ok _ _ _ e5, bind_parseField_ok _ _ _ e8, bind_parseField_ok _ _ _ e9, bind_parseField_ok _ _ _ e10, bind_parseField_ok _ _ _ e13, bind_parseField_error _ _ _ hk]
  · -- position 15
    obtain ⟨w1, -, -, e1⟩ := ParseInt_of_validInt64 _ (hprev 1 (by decide) (by decide))
    obtain ⟨w2, -, -, e2⟩ := ParseInt_of_validInt64 _ (hprev 2 (by decide) (by decide))
    obtain ⟨w3, -, -, e3⟩ := ParseInt_of_validInt64 _ (hprev 3 (by decide) (by decide))
    obtain ⟨w4, -, -, e4⟩ := ParseInt_of_validInt64 _ (hprev 4 (by decide) (by decide))
    obtain ⟨w5, -, -, e5⟩ := ParseInt_of_validInt64 _ (hprev 5 (by decide) (by decide))
    obtain ⟨w8, -, -, e8⟩ := ParseInt_of_validInt64 _ (hprev 8 (by decide) (by decide))
    obtain ⟨w9, -, -, e9⟩ := ParseInt_of_validInt64 _ (hprev 9 (by decide) (by decide))
    obtain ⟨w10, -, -, e10⟩ := ParseInt_of_validInt64 _ (hprev 10 (by decide) (by decide))
    obtain ⟨w13, -, -, e13⟩ := ParseInt_of_validInt64 _ (hprev 13 (by decide) (by decide))
    obtain ⟨w14, -, -, e14⟩ := ParseInt_of_validInt64 _ (hprev 14 (by decide) (by decide))
    rw [bind_parseField_ok _ _ _ e1, bind_parseField_ok _ _ _ e2, bind_parseField_ok _ _ _ e3, bind_parseField_ok _ _ _ e4, bind_parseField_ok _ _ _ e5, bind_parseField_ok _ _ _ e8, bind_parseField_ok _ _ _ e9, bind_parseField_ok _ _ _ e10, bind_parseField_ok _ _ _ e13, bind_parseField_ok _ _ _ e14, bind_parseField_error _ _ _ hk]

/-- C3, on two rows: the row of the specification has eleven valid tokens
and gives a record; a row whose tokens 3 and 9 are not integers gives the
conversion error of token 3. -/
theorem parseSlab_conversion_example :
    (∃ r, parseSlab exampleRow = .ok r) ∧
    parseSlab "kmalloc-64 120 128 6x4 64 1 : tunables 0 zero 0 : slabdata 2 2 0"
      = .error (.numError ⟨"ParseInt", "6x4", .ErrSyntax⟩) := by
  refine ⟨(parseSlab_conversion exampleRow (by decide)).1 (by decide), ?_⟩
  obtain ⟨k, hk, hp, -⟩ :=
    (parseSlab_conversion "kmalloc-64 120 128 6x4 64 1 : tunables 0 zero 0 : slabdata 2 2 0"
      (by decide)).2 3 (by decide) (by decide) (by decide)
  have hk' : ParseInt "6x4" = .error ⟨"ParseInt", "6x4", k⟩ := hk
  have hs : ParseInt "6x4" = .error ⟨"ParseInt", "6x4", .ErrSyntax⟩ := by decide
  rw [hs] at hk'
  injection hk' with hk'
  injection hk' with _ _ hk'
  rw [hk']
  exact hp

/-! ## formatName -/

theorem formatName_data (x : String) :
    (formatName x).data = x.data.map normalizeChar := by
  simp only [formatName, Replace, List.map_map]
  apply List.map_congr_left
  intro c _
  simp only [Function.comp, normalizeChar]
  by_cases h1 : c = ':'
  · subst h1; decide
  by_cases h2 : c = '.'
  · subst h2; decide
  by_cases h3 : c = '-'
  · subst h3; decide
  by_cases h4 : c = '/'
  · subst h4; decide
  simp [h1, h2, h3, h4]

theorem normalizeChar_idem (c : Char) : normalizeChar (normalizeChar c) = normalizeChar c := by
  unfold normalizeChar
  by_cases h : c = ':' ∨ c = '.' ∨ c = '-' ∨ c = '/'
  · rw [if_pos h]; decide
  · rw [if_neg h, if_neg h]

/-- C4: `formatName` is idempotent: applying it to its own result changes
nothing. -/
theorem formatName_idempotent (x : String) :
    formatName (formatName x) = formatName x := by
  apply String.ext
  rw [formatName_data, formatName_data, List.map_map]
  apply List.map_congr_left
  intro c _
  exact normalizeChar_idem c

/-- C5: `formatName x` is as long as `x`, and at every position its character
is an underscore where `x` has a colon, period, hyphen or slash, and the
character of `x` otherwise. -/
theorem formatName_pointwise (x : String) :
    (formatName x).length = x.length ∧
    ∀ i : Nat, (formatName x).data[i]? =
      (x.data[i]?).map (fun c => if c = ':' ∨ c = '.' ∨ c = '-' ∨ c = '/' then '_' else c) := by
  constructor
  · show (formatName x).data.length = x.data.length
    rw [formatName_data, List.length_map]
  · intro i
    rw [formatName_data, List.getElem?_map]
    rfl

/-! ## The metric mapper -/

theorem excessBits_small (fuel m : Nat) (h : m < 2 ^ 53) : excessBits fuel m = 0 := by
  cases fuel with
  | zero => rfl
  | succ n => simp only [excessBits, if_pos h]

theorem roundToFloat64_exact (m : Nat) (h : m ≤ 2 ^ 53) : roundToFloat64 m = m := by
  rcases Nat.lt_or_eq_of_le h with h | h
  · unfold roundToFloat64
    rw [excessBits_small 64 m h]
    simp only [Nat.pow_zero, Nat.mod_one, Nat.div_one, Nat.mul_one, Nat.mul_zero]
    rw [if_neg (by omega)]
  · subst h
    decide

/-- An `int64` of magnitude at most 2^53 is converted to `float64` without
rounding. -/
theorem float64_exact (v : Int) (hl : -(2 ^ 53) ≤ v) (hu : v ≤ 2 ^ 53) : float64 v = v := by
  unfold float64
  have hm : v.natAbs ≤ 2 ^ 53 := by omega
  rw [roundToFloat64_exact _ hm]
  split <;> omega

/-- C6, as stated, fails: the row with 9007199254740993 active objects is
parsed into a record with that field, and the first measurement of the record
has the value 9007199254740992. -/
theorem metrics_value_rounded :
    parseSlab "kmalloc-64 9007199254740993 128 64 64 1 : tunables 0 0 0 : slabdata 2 2 0"
      = .ok roundedRecord ∧
    roundedRecord.objActive = 9007199254740993 ∧
    roundedRecord.metrics.map (fun m => m.val)
      = [9007199254740992, 128, 64, 64, 0, 0, 0, 2, 2, 0] ∧
    roundedRecord.metrics.map (fun m => m.val) ≠
      [roundedRecord.objActive, roundedRecord.objNum, roundedRecord.objSize,
       roundedRecord.objPerSlab, roundedRecord.limit, roundedRecord.batch,
       roundedRecord.sharedFactor, roundedRecord.slabActive, roundedRecord.slabNum,
       roundedRecord.sharedAvail] := by
  decide

/-- C6, amended: `metrics` returns ten measurements whose values are the
`float64` conversions of the fields objActive, objNum, objSize, objPerSlab,
limit, batch, sharedFactor, slabActive, slabNum, sharedAvail in this order,
equal to the fields themselves when these lie between -2^53 and 2^53; they
are described as active_objs, num_objs, objsize, objperslab, limit,
batchcount, sharedfactor, active_slabs, num_slabs, sharedavail, each with the
single label `slab` whose value is the record's name. -/
theorem metrics_values_and_labels (r : slabInfo) :
    r.metrics.length = 10 ∧
    r.metrics.map (fun m => m.val) =
      [float64 r.objActive, float64 r.objNum, float64 r.objSize, float64 r.objPerSlab,
       float64 r.limit, float64 r.batch, float64 r.sharedFactor, float64 r.slabActive,
       float64 r.slabNum, float64 r.sharedAvail] ∧
    r.metrics.map (fun m => m.desc.help) =
      ["slab active_objs", "slab num_objs", "slab objsize", "slab objperslab", "slab limit",
       "slab batchcount", "slab sharedfactor", "slab active_slabs", "slab num_slabs",
       "slab sharedavail"] ∧
    (∀ m ∈ r.metrics, m.desc.variableLabels = ["slab"] ∧ m.labelValues = [r.name]) ∧
    ((∀ v ∈ [r.objActive, r.objNum, r.objSize, r.objPerSlab, r.limit, r.batch, r.sharedFactor,
          r.slabActive, r.slabNum, r.sharedAvail], -(2 ^ 53) ≤ v ∧ v ≤ 2 ^ 53) →
      r.metrics.map (fun m => m.val) =
        [r.objActive, r.objNum, r.objSize, r.objPerSlab, r.limit, r.batch, r.sharedFactor,
         r.slabActive, r.slabNum, r.sharedAvail]) := by
  have hval : r.metrics.map (fun m => m.val) =
      [float64 r.objActive, float64 r.objNum, float64 r.objSize, float64 r.objPerSlab,
       float64 r.limit, float64 r.batch, float64 r.sharedFactor, float64 r.slabActive,
       float64 r.slabNum, float64 r.sharedAvail] := rfl
  refine ⟨rfl, hval, ?_, ?_, ?_⟩
  · simp only [slabInfo.metrics, List.map, MustNewConstMetric, NewDesc]
    decide
  · intro m hm
    simp only [slabInfo.metrics, List.mem_cons, List.mem_singleton, List.not_mem_nil,
      or_false] at hm
    rcases hm with h | h | h | h | h | h | h | h | h | h <;> subst h <;> exact ⟨rfl, rfl⟩
  · intro hb
    have e : ∀ v ∈ [r.objActive, r.objNum, r.objSize, r.objPerSlab, r.limit, r.batch,
        r.sharedFactor, r.slabActive, r.slabNum, r.sharedAvail], float64 v = v :=
      fun v hv => float64_exact v (hb v hv).1 (hb v hv).2
    rw [hval, e r.objActive (by simp), e r.objNum (by simp), e r.objSize (by simp),
      e r.objPerSlab (by simp), e r.limit (by simp), e r.batch (by simp),
      e r.sharedFactor (by simp), e r.slabActive (by simp), e r.slabNum (by simp),
      e r.sharedAvail (by simp)]

/-- C6 amended, on the row of the specification: the record parsed from it
gives ten measurements labelled `ext4_inode_cache_example` whose values are
its fields, the first being active_objs with the value 120. -/
theorem metrics_values_and_labels_example :
    parseSlab exampleRow = .ok exampleRecord ∧ exampleRecord.metrics.length = 10 ∧
    exampleRecord.metrics.map (fun m => m.val) = [120, 140, 712, 11, 54, 27, 0, 10, 10, 0] ∧
    exampleRecord.metrics.map (fun m => m.labelValues) =
      List.replicate 10 ["ext4_inode_cache_example"] ∧
    exampleRecord.metrics.head?.map (fun m => (m.desc.help, m.val))
      = some ("slab active_objs", 120) :=
  ⟨by decide, (metrics_values_and_labels exampleRecord).1,
    (metrics_values_and_labels exampleRecord).2.2.2.2 (by decide), by decide, by decide⟩

/-- C7: on the record of the specification's example `metrics` produces ten
measurements, none of them described as pagesperslab, while `slabMetrics`
declares eleven metrics, pagesperslab among them. -/
theorem metrics_omits_pagesperslab :
    exampleRecord.metrics.length = 10 ∧
    (∀ m ∈ exampleRecord.metrics, m.desc.help ≠ sprintfSlab "pagesperslab") ∧
    slabMetrics.length = 11 ∧ "pagesperslab" ∈ slabMetrics := by
  decide

/-! ## The line filter -/

/-- C8: whatever the inclusion pattern (none, or any compiled pattern), a line
that matches the version-banner pattern or the header pattern is rejected. -/
theorem shouldParse_rejects_banner_and_header (c : slabCollector) (line : String)
    (h : slabVer.MatchString line = true ∨ slabHeader.MatchString line = true) :
    c.shouldParse line = false := by
  unfold slabCollector.shouldParse
  rcases h with h | h
  · rw [if_pos h]
  · by_cases hv : slabVer.MatchString line = true
    · rw [if_pos hv]
    · rw [if_neg hv, if_pos h]

/-- C8, on a banner line and an inclusion pattern that matches it. -/
theorem shouldParse_rejects_banner_and_header_example :
    (compileLiteral "slabinfo").MatchString "slabinfo - version: 2.1" = true ∧
    (slabCollector.mk (some (compileLiteral "slabinfo"))).shouldParse
      "slabinfo - version: 2.1" = false :=
  ⟨by decide,
    shouldParse_rejects_banner_and_header ⟨some (compileLiteral "slabinfo")⟩
      "slabinfo - version: 2.1" (Or.inl (by decide))⟩

/-- C9: with an inclusion pattern configured, a line that is neither a
version-banner nor a header line is accepted exactly when it matches the
pattern. -/
theorem shouldParse_with_pattern (r : Regexp) (line : String)
    (hv : slabVer.MatchString line = false) (hh : slabHeader.MatchString line = false) :
    (slabCollector.mk (some r)).shouldParse line = true ↔ r.MatchString line = true := by
  unfold slabCollector.shouldParse
  simp [hv, hh]

/-- C9, on the rows of the specification: with the pattern `^kmalloc` the
dmabuf row is rejected and the kmalloc-64 row is accepted. -/
theorem shouldParse_with_pattern_example :
    (slabCollector.mk (some (compileAnchored "kmalloc"))).shouldParse
      "dmabuf 10 10 64 64 1 : tunables 0 0 0 : slabdata 1 1 0" = false ∧
    (slabCollector.mk (some (compileAnchored "kmalloc"))).shouldParse
      "kmalloc-64 120 128 64 64 1 : tunables 0 0 0 : slabdata 2 2 0" = true :=
  ⟨Bool.eq_false_iff.mpr (fun h =>
      absurd ((shouldParse_with_pattern (compileAnchored "kmalloc")
        "dmabuf 10 10 64 64 1 : tunables 0 0 0 : slabdata 1 1 0" (by decide) (by decide)).mp h)
        (by decide)),
    (shouldParse_with_pattern (compileAnchored "kmalloc")
      "kmalloc-64 120 128 64 64 1 : tunables 0 0 0 : slabdata 2 2 0" (by decide) (by decide)).mpr
      (by decide)⟩

/-- C10, as stated, fails: with no inclusion pattern the line `pool # name`
is rejected although it has no version banner and does not begin with
`# name`. -/
theorem shouldParse_header_not_anchored :
    ¬ ((slabCollector.mk none).shouldParse "pool # name" = true ↔
        (slabVer.MatchString "pool # name" = false ∧
         beginsWith "# name" "pool # name" = false)) := by
  decide

/-- C10, amended: when the `regex` option is absent or empty the collector is
built with no pattern, and it then accepts a line exactly when the line
contains neither `slabinfo -` nor `# name`, at any position. -/
theorem shouldParse_without_pattern (compile : String → Except GoError Regexp)
    (line : String) :
    NewSlabCollector compile none = .ok ⟨none⟩ ∧
    NewSlabCollector compile (some "") = .ok ⟨none⟩ ∧
    ((slabCollector.mk none).shouldParse line = true ↔
      (occursIn "slabinfo -".data line.data = false ∧
       occursIn "# name".data line.data = false)) := by
  refine ⟨rfl, rfl, ?_⟩
  unfold slabCollector.shouldParse
  show (if occursIn "slabinfo -".data line.data = true then false
      else if occursIn "# name".data line.data = true then false else true) = true ↔ _
  cases occursIn "slabinfo -".data line.data <;>
    cases occursIn "# name".data line.data <;> simp

/-! ## The collection pass -/

theorem collectLines_cons_skip (c : slabCollector) (line : String) (rest : List String)
    (h : c.shouldParse line = false ∨ ∃ e, parseSlab line = .error e) :
    collectLines c (line :: rest) = collectLines c rest := by
  rcases h with h | ⟨e, h⟩
  · simp [collectLines, h]
  · simp only [collectLines, h]
    split <;> rfl

theorem collectLines_cons_row (c : slabCollector) (line : String) (rest : List String)
    (r : slabInfo) (ha : c.shouldParse line = true) (hp : parseSlab line = .ok r) :
    collectLines c (line :: rest) = r.metrics ++ collectLines c rest := by
  simp [collectLines, ha, hp]

theorem collectLines_append (c : slabCollector) (A B : List String) :
    collectLines c (A ++ B) = collectLines c A ++ collectLines c B := by
  induction A with
  | nil => rfl
  | cons line rest ih =>
    rw [List.cons_append]
    cases ha : c.shouldParse line
    · rw [collectLines_cons_skip c line _ (Or.inl ha),
        collectLines_cons_skip c line _ (Or.inl ha), ih]
    · cases hp : parseSlab line with
      | error e =>
        rw [collectLines_cons_skip c line _ (Or.inr ⟨e, hp⟩),
          collectLines_cons_skip c line _ (Or.inr ⟨e, hp⟩), ih]
      | ok r =>
        rw [collectLines_cons_row c line _ r ha hp, collectLines_cons_row c line _ r ha hp, ih,
          List.append_assoc]

theorem collectLines_eq_spec (c : slabCollector) (lines : List String) :
    collectLines c lines = collectSpec c lines := by
  induction lines with
  | nil => rfl
  | cons line rest ih =>
    unfold collectSpec at ih ⊢
    cases ha : c.shouldParse line
    · rw [collectLines_cons_skip c line rest (Or.inl ha), ih]
      simp [List.filter, ha]
    · cases hp : parseSlab line with
      | error e =>
        rw [collectLines_cons_skip c line rest (Or.inr ⟨e, hp⟩), ih]
        simp [List.filter, ha, hp, Except.toOption]
      | ok r =>
        rw [collectLines_cons_row c line rest r ha hp, ih]
        simp [List.filter, ha, hp, Except.toOption]

/-- C11: with the opened source a list of lines, `Collect` emits the
concatenation, in line order, of the measurements of the lines that
`shouldParse` accepts and `parseSlab` parses; so the pass over `A ++ B` is
the pass over `A` followed by the pass over `B`, a rejected or malformed line
inserted anywhere changes nothing, and two accepted rows of the same name
give two groups of measurements with the same label. -/
theorem Collect_concatenates_rows (c : slabCollector) :
    (∀ lines, c.Collect (some lines) = collectSpec c lines) ∧
    (∀ A B, c.Collect (some (A ++ B)) = c.Collect (some A) ++ c.Collect (some B)) ∧
    (∀ A B bad, (c.shouldParse bad = false ∨ ∃ e, parseSlab bad = .error e) →
      c.Collect (some (A ++ bad :: B)) = c.Collect (some (A ++ B))) ∧
    (∀ l₁ l₂ r₁ r₂, c.shouldParse l₁ = true → c.shouldParse l₂ = true →
      parseSlab l₁ = .ok r₁ → parseSlab l₂ = .ok r₂ → r₁.name = r₂.name →
      c.Collect (some [l₁, l₂]) = r₁.metrics ++ r₂.metrics ∧
      (c.Collect (some [l₁, l₂])).length = 20 ∧
      ∀ m ∈ c.Collect (some [l₁, l₂]), m.labelValues = [r₁.name]) := by
  refine ⟨fun lines => collectLines_eq_spec c lines, fun A B => collectLines_append c A B, ?_, ?_⟩
  · intro A B bad h
    show collectLines c (A ++ bad :: B) = collectLines c (A ++ B)
    rw [collectLines_append, collectLines_append, collectLines_cons_skip c bad B h]
  · intro l₁ l₂ r₁ r₂ h₁ h₂ p₁ p₂ hname
    have e : c.Collect (some [l₁, l₂]) = r₁.metrics ++ r₂.metrics := by
      show collectLines c [l₁, l₂] = _
      rw [collectLines_cons_row c l₁ _ r₁ h₁ p₁, collectLines_cons_row c l₂ _ r₂ h₂ p₂]
      simp [collectLines]
    refine ⟨e, ?_, ?_⟩
    · rw [e]; rfl
    · intro m hm
      rw [e, List.mem_append] at hm
      rcases hm with hm | hm
      · simp only [slabInfo.metrics, List.mem_cons, List.mem_singleton, List.not_mem_nil,
          or_false] at hm
        rcases hm with h | h | h | h | h | h | h | h | h | h <;> subst h <;> rfl
      · rw [hname]
        simp only [slabInfo.metrics, List.mem_cons, List.mem_singleton, List.not_mem_nil,
          or_false] at hm
        rcases hm with h | h | h | h | h | h | h | h | h | h <;> subst h <;> rfl

/-- C11, on a file of five lines: the banner, the header and a row that lacks
a column contribute nothing, and the row of the specification, read twice,
gives its ten measurements twice. -/
theorem Collect_concatenates_rows_example :
    (slabCollector.mk none).Collect (some
      ["slabinfo - version: 2.1",
       "# name            <active_objs> <num_objs> <objsize> <objperslab> <pagesperslab>",
       exampleRow,
       "kmalloc-64 120 128 64 64 1 : tunables 0 0 0 : slabdata 2 2",
       exampleRow])
      = exampleRecord.metrics ++ exampleRecord.metrics := by
  have h := (Collect_concatenates_rows ⟨none⟩).2.2.1
    ["slabinfo - version: 2.1",
     "# name            <active_objs> <num_objs> <objsize> <objperslab> <pagesperslab>",
     exampleRow] [exampleRow]
    "kmalloc-64 120 128 64 64 1 : tunables 0 0 0 : slabdata 2 2"
    (Or.inr ⟨.errorf "unable to parse: kmalloc-64 120 128 64 64 1 : tunables 0 0 0 : slabdata 2 2",
      by decide⟩)
  have h₂ := (Collect_concatenates_rows ⟨none⟩).2.2.2 exampleRow exampleRow exampleRecord
    exampleRecord (by decide) (by decide) (by decide) (by decide) rfl
  have h₃ := (Collect_concatenates_rows ⟨none⟩).2.2.1 [] [exampleRow, exampleRow]
    "slabinfo - version: 2.1" (Or.inl (by decide))
  have h₄ := (Collect_concatenates_rows ⟨none⟩).2.2.1 [] [exampleRow, exampleRow]
    "# name            <active_objs> <num_objs> <objsize> <objperslab> <pagesperslab>"
    (Or.inl (by decide))
  have h₅ := (Collect_concatenates_rows ⟨none⟩).2.2.1 ["slabinfo - version: 2.1"]
    [exampleRow, exampleRow]
    "# name            <active_objs> <num_objs> <objsize> <objperslab> <pagesperslab>"
    (Or.inl (by decide))
  simp only [List.nil_append, List.cons_append] at h h₃ h₄ h₅
  rw [h, h₅, h₃, h₂.1]

/-! ## What the passes announce and emit -/

theorem metrics_fqNames (r : slabInfo) :
    r.metrics.map (fun m => m.desc.fqName) =
      ["slab_active_objs", "slab_objs_num", "slab_obj_size", "slab_obj_perslab",
       "slab_limit_slabs", "slab_batch_count", "slab_shared_factor", "slab_slabs_active",
       "slab_slabs_num", "slab_shared_avail"] := by
  simp only [slabInfo.metrics, List.map, MustNewConstMetric, NewDesc]
  decide

theorem metrics_helps (r : slabInfo) :
    r.metrics.map (fun m => m.desc.help) =
      ["slab active_objs", "slab num_objs", "slab objsize", "slab objperslab", "slab limit",
       "slab batchcount", "slab sharedfactor", "slab active_slabs", "slab num_slabs",
       "slab sharedavail"] := by
  simp only [slabInfo.metrics, List.map, MustNewConstMetric, NewDesc]
  decide

theorem Describe_opened (c : slabCollector) (lines : List String) :
    c.Describe (some lines) =
      slabMetrics.map (fun m =>
        NewDesc (BuildFQName slabNamespace m "slab") (sprintfSlab m) ["slab"]) := rfl

/-- C12: `pagesPerSlab` is never emitted: two records that agree on every
other field give the same measurements, and no measurement is described as
pagesperslab or carries it in its name. -/
theorem metrics_ignores_pagesPerSlab (r r' : slabInfo)
    (h0 : r.name = r'.name) (h1 : r.objActive = r'.objActive) (h2 : r.objNum = r'.objNum)
    (h3 : r.objSize = r'.objSize) (h4 : r.objPerSlab = r'.objPerSlab)
    (h8 : r.limit = r'.limit) (h9 : r.batch = r'.batch)
    (h10 : r.sharedFactor = r'.sharedFactor) (h13 : r.slabActive = r'.slabActive)
    (h14 : r.slabNum = r'.slabNum) (h15 : r.sharedAvail = r'.sharedAvail) :
    r.metrics = r'.metrics ∧
    (∀ h ∈ r.metrics.map (fun m => m.desc.help), occursIn "pagesperslab".data h.data = false) ∧
    (∀ n ∈ r.metrics.map (fun m => m.desc.fqName), occursIn "pages".data n.data = false) := by
  refine ⟨?_, ?_, ?_⟩
  · simp only [slabInfo.metrics, h0, h1, h2, h3, h4, h8, h9, h10, h13, h14, h15]
  · rw [metrics_helps]
    decide
  · rw [metrics_fqNames]
    decide

/-- C12, on the record of the specification and the same record with another
page count: the measurements are the same. -/
theorem metrics_ignores_pagesPerSlab_example :
    exampleRecord.metrics = ({ exampleRecord with pagesPerSlab := 64 } : slabInfo).metrics :=
  (metrics_ignores_pagesPerSlab exampleRecord { exampleRecord with pagesPerSlab := 64 }
    rfl rfl rfl rfl rfl rfl rfl rfl rfl rfl rfl).1

/-- C18: with the opened source a list of lines, `Describe` sends the same
eleven descriptors whatever the lines are, one for each entry of
`slabMetrics` in declared order; the rows parsed and their sort do not reach
the output. -/
theorem Describe_ignores_lines (c : slabCollector) (lines₁ lines₂ : List String) :
    c.Describe (some lines₁) = c.Describe (some lines₂) ∧
    (c.Describe (some lines₁)).length = 11 ∧
    c.Describe (some lines₁) =
      slabMetrics.map (fun m => Desc.mk ("slab_" ++ m ++ "_slab") ("slab " ++ m) ["slab"]) ∧
    (c.Describe (some lines₁)).map (fun d => d.help) =
      ["slab active_objs", "slab num_objs", "slab objsize", "slab objperslab",
       "slab pagesperslab", "slab limit", "slab batchcount", "slab sharedfactor",
       "slab active_slabs", "slab num_slabs", "slab sharedavail"] := by
  rw [Describe_opened, Describe_opened]
  refine ⟨rfl, rfl, ?_, ?_⟩ <;> decide

/-- C19: the ten fully-qualified names that `metrics` builds are pairwise
distinct, the eleven that `Describe` builds are `slab_` + m + `_slab` for the
entries m of `slabMetrics`, and no name of the first kind is one of the
second. -/
theorem metric_names_never_announced (r : slabInfo) (c : slabCollector)
    (lines : List String) :
    r.metrics.map (fun m => m.desc.fqName) =
      ["slab_active_objs", "slab_objs_num", "slab_obj_size", "slab_obj_perslab",
       "slab_limit_slabs", "slab_batch_count", "slab_shared_factor", "slab_slabs_active",
       "slab_slabs_num", "slab_shared_avail"] ∧
    (r.metrics.map (fun m => m.desc.fqName)).Nodup ∧
    (c.Describe (some lines)).map (fun d => d.fqName) =
      slabMetrics.map (fun m => "slab_" ++ m ++ "_slab") ∧
    ∀ n ∈ r.metrics.map (fun m => m.desc.fqName),
      n ∉ (c.Describe (some lines)).map (fun d => d.fqName) := by
  rw [metrics_fqNames, Describe_opened]
  refine ⟨rfl, ?_, ?_, ?_⟩ <;> decide

/-! ## The order of the replacements -/

theorem replaceInOrder_data (order : List Char) (x : String) :
    (replaceInOrder order x).data = x.data.map (fun c => if c ∈ order then '_' else c) := by
  induction order generalizing x with
  | nil => simp [replaceInOrder]
  | cons a rest ih =>
    have hstep : replaceInOrder (a :: rest) x = replaceInOrder rest (Replace x a '_') := rfl
    rw [hstep, ih]
    simp only [Replace, List.map_map]
    apply List.map_congr_left
    intro c _
    simp only [Function.comp, List.mem_cons]
    by_cases hc : c = a
    · simp [hc]
    · by_cases hr : c ∈ rest
      · simp [hc, hr]
      · simp [hc, hr]

/-- C15: the four replacements of `formatName` applied in any order give the
result of `formatName`. -/
theorem formatName_order_irrelevant (x : String) (order : List Char)
    (h : order.Perm replacedChars) :
    replaceInOrder order x = formatName x := by
  have hf : formatName x = replaceInOrder replacedChars x := rfl
  apply String.ext
  rw [hf, replaceInOrder_data, replaceInOrder_data]
  apply List.map_congr_left
  intro c _
  simp only [h.mem_iff]

/-- C15, on one name and the replacements in the reverse order. -/
theorem formatName_order_irrelevant_example :
    Replace (Replace (Replace (Replace "a:b.c-d/e" '/' '_') '-' '_') '.' '_') ':' '_'
      = formatName "a:b.c-d/e" :=
  formatName_order_irrelevant "a:b.c-d/e" ['/', '-', '.', ':'] (by decide)

/-! ## The rows that are accepted -/

theorem ParseInt_ok_iff (tok : String) (v : Int) :
    ParseInt tok = .ok v ↔ writesInt64 tok v := by
  constructor
  · intro h
    obtain ⟨l⟩ := tok
    cases l with
    | nil => exact absurd h (by simp [ParseInt])
    | cons c rest =>
      cases hd : decimalValue ⟨c :: rest⟩ with
      | none =>
        obtain ⟨k, hk⟩ := (ParseInt_cons c rest).2 hd
        rw [hk] at h
        cases h
      | some w =>
        rw [(ParseInt_cons c rest).1 w hd] at h
        by_cases hr : inInt64Range w
        · rw [if_pos hr] at h
          injection h with h
          subst h
          exact ⟨hd, hr⟩
        · rw [if_neg hr] at h
          cases h
  · intro h
    exact ParseInt_valid tok v h.1 h.2

theorem bind_parseField_ok_iff {α : Type} (tok : String) (f : Int → Except GoError α) (r : α) :
    (parseField tok >>= f) = .ok r ↔ ∃ v, ParseInt tok = .ok v ∧ f v = .ok r := by
  cases h : ParseInt tok with
  | error e =>
    rw [bind_parseField_error tok e f h]
    constructor
    · intro h'; cases h'
    · rintro ⟨v, hv, -⟩; cases hv
  | ok v =>
    rw [bind_parseField_ok tok v f h]
    constructor
    · intro h'; exact ⟨v, rfl, h'⟩
    · rintro ⟨w, hw, h'⟩
      injection hw with hw
      subst hw
      exact h'

/-- The rows `parseSlab` accepts and the record it returns: the split of the
collapsed line has sixteen elements, the name is the normalised element 0 and
each integer field is what `ParseInt` returns for its element. -/
theorem parseSlab_ok_iff (line : String) (r : slabInfo) :
    parseSlab line = .ok r ↔
      (Split (spaceReplaceAll line)).length = 16 ∧
      r.name = formatName (index (Split (spaceReplaceAll line)) 0) ∧
      ParseInt (index (Split (spaceReplaceAll line)) 1) = .ok r.objActive ∧
      ParseInt (index (Split (spaceReplaceAll line)) 2) = .ok r.objNum ∧
      ParseInt (index (Split (spaceReplaceAll line)) 3) = .ok r.objSize ∧
      ParseInt (index (Split (spaceReplaceAll line)) 4) = .ok r.objPerSlab ∧
      ParseInt (index (Split (spaceReplaceAll line)) 5) = .ok r.pagesPerSlab ∧
      ParseInt (index (Split (spaceReplaceAll line)) 8) = .ok r.limit ∧
      ParseInt (index (Split (spaceReplaceAll line)) 9) = .ok r.batch ∧
      ParseInt (index (Split (spaceReplaceAll line)) 10) = .ok r.sharedFactor ∧
      ParseInt (index (Split (spaceReplaceAll line)) 13) = .ok r.slabActive ∧
      ParseInt (index (Split (spaceReplaceAll line)) 14) = .ok r.slabNum ∧
      ParseInt (index (Split (spaceReplaceAll line)) 15) = .ok r.sharedAvail := by
  by_cases hlen : (Split (spaceReplaceAll line)).length = 16
  · have hshape : ¬ (Split (spaceReplaceAll line)).length ≠ 16 := by simp [hlen]
    unfold parseSlab
    simp only [if_neg hshape, bind_parseField_ok_iff]
    constructor
    · rintro ⟨v1, h1, v2, h2, v3, h3, v4, h4, v5, h5, v8, h8, v9, h9, v10, h10, v13, h13,
        v14, h14, v15, h15, h⟩
      have h' : (Except.ok _ : Except GoError slabInfo) = Except.ok r := h
      injection h' with h'
      subst h'
      exact ⟨hlen, rfl, h1, h2, h3, h4, h5, h8, h9, h10, h13, h14, h15⟩
    · rintro ⟨-, h0, h1, h2, h3, h4, h5, h8, h9, h10, h13, h14, h15⟩
      refine ⟨_, h1, _, h2, _, h3, _, h4, _, h5, _, h8, _, h9, _, h10, _, h13, _, h14, _, h15,
        ?_⟩
      rw [← h0]
      rfl
  · constructor
    · intro h
      rw [parseSlab_shape_error line hlen] at h
      cases h
    · intro h
      exact absurd h.1 hlen

theorem validInt64_of_ok (tok : String) (v : Int) (h : ParseInt tok = .ok v) :
    validInt64 tok = true := by
  obtain ⟨hd, hr⟩ := (ParseInt_ok_iff tok v).mp h
  unfold validInt64
  rw [hd]
  exact decide_eq_true hr

/-- C13: on a line that passes the shape check, `parseSlab` returns a record
exactly when the token at each converted position is an optional sign `+` or
`-` followed by one or more decimal digits whose value lies between -2^63 and
2^63-1, and each integer field of the record is the value of its token. -/
theorem parseSlab_accepts_exactly_int64 (line : String)
    (hlen : (Split (spaceReplaceAll line)).length = 16) :
    ((∃ r, parseSlab line = .ok r) ↔
      ∀ i ∈ targets, validInt64 (index (Split (spaceReplaceAll line)) i) = true) ∧
    (∀ r, parseSlab line = .ok r →
      writesInt64 (index (Split (spaceReplaceAll line)) 1) r.objActive ∧
      writesInt64 (index (Split (spaceReplaceAll line)) 2) r.objNum ∧
      writesInt64 (index (Split (spaceReplaceAll line)) 3) r.objSize ∧
      writesInt64 (index (Split (spaceReplaceAll line)) 4) r.objPerSlab ∧
      writesInt64 (index (Split (spaceReplaceAll line)) 5) r.pagesPerSlab ∧
      writesInt64 (index (Split (spaceReplaceAll line)) 8) r.limit ∧
      writesInt64 (index (Split (spaceReplaceAll line)) 9) r.batch ∧
      writesInt64 (index (Split (spaceReplaceAll line)) 10) r.sharedFactor ∧
      writesInt64 (index (Split (spaceReplaceAll line)) 13) r.slabActive ∧
      writesInt64 (index (Split (spaceReplaceAll line)) 14) r.slabNum ∧
      writesInt64 (index (Split (spaceReplaceAll line)) 15) r.sharedAvail) := by
  refine ⟨⟨?_, ?_⟩, ?_⟩
  · rintro ⟨r, hr⟩ i hi
    obtain ⟨-, -, h1, h2, h3, h4, h5, h8, h9, h10, h13, h14, h15⟩ :=
      (parseSlab_ok_iff line r).mp hr
    simp only [targets, List.mem_cons, List.mem_singleton, List.not_mem_nil, or_false] at hi
    rcases hi with rfl | rfl | rfl | rfl | rfl | rfl | rfl | rfl | rfl | rfl | rfl
    · exact validInt64_of_ok _ _ h1
    · exact validInt64_of_ok _ _ h2
    · exact validInt64_of_ok _ _ h3
    · exact validInt64_of_ok _ _ h4
    · exact validInt64_of_ok _ _ h5
    · exact validInt64_of_ok _ _ h8
    · exact validInt64_of_ok _ _ h9
    · exact validInt64_of_ok _ _ h10
    · exact validInt64_of_ok _ _ h13
    · exact validInt64_of_ok _ _ h14
    · exact validInt64_of_ok _ _ h15
  · intro hall
    obtain ⟨w1, -, -, e1⟩ := ParseInt_of_validInt64 _ (hall 1 (by decide))
    obtain ⟨w2, -, -, e2⟩ := ParseInt_of_validInt64 _ (hall 2 (by decide))
    obtain ⟨w3, -, -, e3⟩ := ParseInt_of_validInt64 _ (hall 3 (by decide))
    obtain ⟨w4, -, -, e4⟩ := ParseInt_of_validInt64 _ (hall 4 (by decide))
    obtain ⟨w5, -, -, e5⟩ := ParseInt_of_validInt64 _ (hall 5 (by decide))
    obtain ⟨w8, -, -, e8⟩ := ParseInt_of_validInt64 _ (hall 8 (by decide))
    obtain ⟨w9, -, -, e9⟩ := ParseInt_of_validInt64 _ (hall 9 (by decide))
    obtain ⟨w10, -, -, e10⟩ := ParseInt_of_validInt64 _ (hall 10 (by decide))
    obtain ⟨w13, -, -, e13⟩ := ParseInt_of_validInt64 _ (hall 13 (by decide))
    obtain ⟨w14, -, -, e14⟩ := ParseInt_of_validInt64 _ (hall 14 (by decide))
    obtain ⟨w15, -, -, e15⟩ := ParseInt_of_validInt64 _ (hall 15 (by decide))
    exact ⟨⟨formatName (index (Split (spaceReplaceAll line)) 0), w1, w2, w3, w4, w5, w8, w9,
      w10, w13, w14, w15⟩,
      (parseSlab_ok_iff line _).mpr
        ⟨hlen, rfl, e1, e2, e3, e4, e5, e8, e9, e10, e13, e14, e15⟩⟩
  · intro r hr
    obtain ⟨-, -, h1, h2, h3, h4, h5, h8, h9, h10, h13, h14, h15⟩ :=
      (parseSlab_ok_iff line r).mp hr
    exact ⟨(ParseInt_ok_iff _ _).mp h1, (ParseInt_ok_iff _ _).mp h2, (ParseInt_ok_iff _ _).mp h3,
      (ParseInt_ok_iff _ _).mp h4, (ParseInt_ok_iff _ _).mp h5, (ParseInt_ok_iff _ _).mp h8,
      (ParseInt_ok_iff _ _).mp h9, (ParseInt_ok_iff _ _).mp h10, (ParseInt_ok_iff _ _).mp h13,
      (ParseInt_ok_iff _ _).mp h14, (ParseInt_ok_iff _ _).mp h15⟩

/-- C13, on four rows: negative and signed values and the largest and
smallest 64-bit values are accepted and stored; a row with 9223372036854775808,
a row whose last token is empty and a row with a letter in a number give no
record. -/
theorem parseSlab_accepts_exactly_int64_example :
    parseSlab
      "kmalloc-64 -5 +128 9223372036854775807 -9223372036854775808 1 : tunables 0 0 0 : slabdata 2 2 0"
      = .ok ⟨"kmalloc_64", -5, 128, 9223372036854775807, -9223372036854775808, 1, 0, 0, 0, 2,
          2, 0⟩ ∧
    (parseSlab
      "kmalloc-64 9223372036854775808 128 64 64 1 : tunables 0 0 0 : slabdata 2 2 0").toOption
      = none ∧
    (parseSlab "kmalloc-64 120 128 64 64 1 : tunables 0 0 0 : slabdata 2 2 ").toOption = none ∧
    (parseSlab "kmalloc-64 120 128 6x4 64 1 : tunables 0 0 0 : slabdata 2 2 0").toOption
      = none := by
  refine ⟨?_, ?_, ?_, ?_⟩
  · obtain ⟨r, hr⟩ := (parseSlab_accepts_exactly_int64
      "kmalloc-64 -5 +128 9223372036854775807 -9223372036854775808 1 : tunables 0 0 0 : slabdata 2 2 0"
      (by decide)).1.mpr (by decide)
    decide
  · cases h : parseSlab
      "kmalloc-64 9223372036854775808 128 64 64 1 : tunables 0 0 0 : slabdata 2 2 0" with
    | error e => rfl
    | ok r =>
      exact absurd ((parseSlab_accepts_exactly_int64
        "kmalloc-64 9223372036854775808 128 64 64 1 : tunables 0 0 0 : slabdata 2 2 0"
        (by decide)).1.mp ⟨r, h⟩) (by decide)
  · cases h : parseSlab "kmalloc-64 120 128 64 64 1 : tunables 0 0 0 : slabdata 2 2 " with
    | error e => rfl
    | ok r =>
      exact absurd ((parseSlab_accepts_exactly_int64
        "kmalloc-64 120 128 64 64 1 : tunables 0 0 0 : slabdata 2 2 "
        (by decide)).1.mp ⟨r, h⟩) (by decide)
  · cases h : parseSlab "kmalloc-64 120 128 6x4 64 1 : tunables 0 0 0 : slabdata 2 2 0" with
    | error e => rfl
    | ok r =>
      exact absurd ((parseSlab_accepts_exactly_int64
        "kmalloc-64 120 128 6x4 64 1 : tunables 0 0 0 : slabdata 2 2 0"
        (by decide)).1.mp ⟨r, h⟩) (by decide)

/-- C14: two lines that are equal once every maximal run of whitespace is
replaced by one space are treated alike: `parseSlab` returns the same record
for both, or fails on both. -/
theorem parseSlab_column_width (l₁ l₂ : String)
    (h : spaceReplaceAll l₁ = spaceReplaceAll l₂) :
    (∃ r, parseSlab l₁ = .ok r ∧ parseSlab l₂ = .ok r) ∨
    ((∃ e, parseSlab l₁ = .error e) ∧ (∃ e, parseSlab l₂ = .error e)) := by
  have key : ∀ r, parseSlab l₁ = .ok r ↔ parseSlab l₂ = .ok r := by
    intro r
    rw [parseSlab_ok_iff, parseSlab_ok_iff, h]
  cases h₁ : parseSlab l₁ with
  | ok r => exact Or.inl ⟨r, rfl, (key r).mp h₁⟩
  | error e =>
    right
    refine ⟨⟨e, rfl⟩, ?_⟩
    cases h₂ : parseSlab l₂ with
    | ok r =>
      rw [(key r).mpr h₂] at h₁
      cases h₁
    | error e' => exact ⟨e', rfl⟩

/-- C14, on the row of the specification with its columns padded by spaces
and tabs. -/
theorem parseSlab_column_width_example :
    parseSlab
      "ext4_inode_cache:example   120    140  712\t11 2 : tunables   54   27    0 : slabdata 10 10 \t 0"
      = .ok exampleRecord := by
  rcases parseSlab_column_width exampleRow
    "ext4_inode_cache:example   120    140  712\t11 2 : tunables   54   27    0 : slabdata 10 10 \t 0"
    (by decide) with ⟨r, h₁, h₂⟩ | ⟨⟨e, h₁⟩, -⟩
  · have hr : parseSlab exampleRow = .ok exampleRecord := by decide
    rw [hr] at h₁
    have e : exampleRecord = r := Except.ok.inj h₁
    rw [e]
    exact h₂
  · have hr : parseSlab exampleRow = .ok exampleRecord := by decide
    rw [hr] at h₁
    cases h₁

/-! ## Leading and trailing whitespace -/

theorem lastSpaceFrom_cons (d : Bool) (c : Char) (cs : List Char) :
    lastSpaceFrom d (c :: cs) = lastIsSpace (c :: cs) := by
  induction cs generalizing c d with
  | nil => rfl
  | cons c' cs' ih =>
    show lastSpaceFrom (isSpace c) (c' :: cs') = lastIsSpace (c' :: cs')
    exact ih (isSpace c) c'

/-- The split of the collapsed line, element by element: after the first
element come the non-empty pieces of the line and, when the line ends with
whitespace, one empty element. -/
theorem fields_structure (l : List Char) :
    (∃ h t₁ t₂, splitWhere (fun c => c == ' ') (replaceRuns false l) = h :: t₁ ∧
      splitWhere isSpace l = h :: t₂ ∧
      t₁ = t₂.filter (fun t => !t.isEmpty) ++ (if lastSpaceFrom false l then [[]] else [])) ∧
    splitWhere (fun c => c == ' ') (replaceRuns true l) =
      (splitWhere isSpace l).filter (fun t => !t.isEmpty) ++
        (if lastSpaceFrom true l then [[]] else []) := by
  induction l with
  | nil =>
    refine ⟨⟨[], [], [], fields_nil false, by simp [splitWhere], by simp [lastSpaceFrom]⟩, ?_⟩
    rw [fields_nil]
    simp [splitWhere, lastSpaceFrom]
  | cons c cs ih =>
    obtain ⟨⟨h, t₁, t₂, h₁, h₂, h₃⟩, ih₂⟩ := ih
    cases hc : isSpace c
    · have hs : splitWhere isSpace (c :: cs) = (c :: h) :: t₂ := by
        simp only [splitWhere, hc, h₂]; rfl
      have hl : ∀ d, lastSpaceFrom d (c :: cs) = lastSpaceFrom false cs := by
        intro d; simp only [lastSpaceFrom, hc]
      refine ⟨⟨c :: h, t₁, t₂, ?_, hs, ?_⟩, ?_⟩
      · rw [fields_cons_char false c cs hc, h₁]; rfl
      · rw [hl]; exact h₃
      · rw [fields_cons_char true c cs hc, h₁, hs, hl, h₃]
        simp [consHead]
    · have hs : splitWhere isSpace (c :: cs) = [] :: splitWhere isSpace cs := by
        simp [splitWhere, hc]
      have hl : ∀ d, lastSpaceFrom d (c :: cs) = lastSpaceFrom true cs := by
        intro d; simp only [lastSpaceFrom, hc]
      refine ⟨⟨[], _, _, fields_cons_space_false c cs hc, hs, ?_⟩, ?_⟩
      · rw [hl]; exact ih₂
      · rw [fields_cons_space_true c cs hc, ih₂, hs, hl]
        simp

/-- The split of the collapsed line against the tokens of the line: leading
whitespace puts an empty element in front of the tokens and trailing
whitespace one behind them. -/
theorem Split_structure (line : String) (hne : line.data ≠ []) :
    Split (spaceReplaceAll line) =
      (if startsWithSpace line = true then [""] else []) ++ tokens line ++
        (if endsWithSpace line = true then [""] else []) := by
  obtain ⟨⟨h, t₁, t₂, h₁, h₂, h₃⟩, -⟩ := fields_structure line.data
  have hS : Split (spaceReplaceAll line) = (h :: t₁).map String.mk := by
    unfold Split spaceReplaceAll
    rw [← h₁]
  have hT : tokens line = ((h :: t₂).filter (fun t => !t.isEmpty)).map String.mk := by
    unfold tokens
    rw [h₂]
  cases hd : line.data with
  | nil => exact absurd hd hne
  | cons c cs =>
    have hend : endsWithSpace line = lastSpaceFrom false line.data := by
      unfold endsWithSpace
      rw [hd, lastSpaceFrom_cons]
    have hstart : startsWithSpace line = isSpace c := by
      simp [startsWithSpace, hd]
    rw [hS, hT, h₃, hend, hstart]
    rw [hd] at h₂
    cases hc : isSpace c
    · have hh : h ≠ [] := by
        simp only [splitWhere, hc] at h₂
        cases hsp : splitWhere isSpace cs with
        | nil => exact absurd hsp (splitWhere_ne_nil _ _)
        | cons w ws =>
          rw [hsp] at h₂
          simp only [consHead, Bool.false_eq_true, if_false] at h₂
          injection h₂ with h₂ _
          rw [← h₂]
          simp
      cases h with
      | nil => exact absurd rfl hh
      | cons a as =>
        cases hl : lastSpaceFrom false line.data <;> simp [List.filter]
    · have hh : h = [] := by
        simp only [splitWhere, hc, if_true] at h₂
        injection h₂ with h₂ _
        exact h₂.symm
      subst hh
      cases hl : lastSpaceFrom false line.data <;> simp [List.filter]

/-! ## The name of a record -/

theorem replaceRuns_space (b : Bool) (l : List Char) :
    ∀ c ∈ replaceRuns b l, isSpace c = true → c = ' ' := by
  induction l generalizing b with
  | nil => intro c hc; simp [replaceRuns] at hc
  | cons a as ih =>
    intro c hc hsp
    cases ha : isSpace a
    · simp only [replaceRuns, ha, Bool.false_eq_true, if_false, List.mem_cons] at hc
      rcases hc with rfl | hc
      · rw [ha] at hsp; exact absurd hsp (by decide)
      · exact ih false c hc hsp
    · cases b
      · simp only [replaceRuns, ha, if_true, Bool.false_eq_true, if_false, List.mem_cons] at hc
        rcases hc with rfl | hc
        · rfl
        · exact ih true c hc hsp
      · simp only [replaceRuns, ha, if_true] at hc
        exact ih true c hc hsp

theorem splitWhere_mem (p : Char → Bool) (l : List Char) :
    ∀ t ∈ splitWhere p l, ∀ c ∈ t, p c = false ∧ c ∈ l := by
  induction l with
  | nil =>
    intro t ht c hc
    simp only [splitWhere, List.mem_singleton] at ht
    subst ht
    simp at hc
  | cons a as ih =>
    intro t ht c hc
    cases ha : p a
    · simp only [splitWhere, ha, Bool.false_eq_true, if_false] at ht
      cases hsp : splitWhere p as with
      | nil => exact absurd hsp (splitWhere_ne_nil _ _)
      | cons w ws =>
        rw [hsp] at ht ih
        simp only [consHead, List.mem_cons] at ht
        rcases ht with rfl | ht
        · simp only [List.mem_cons] at hc
          rcases hc with rfl | hc
          · exact ⟨ha, by simp⟩
          · obtain ⟨h₁, h₂⟩ := ih w (by simp) c hc
            exact ⟨h₁, List.mem_cons_of_mem _ h₂⟩
        · obtain ⟨h₁, h₂⟩ := ih t (by simp [ht]) c hc
          exact ⟨h₁, List.mem_cons_of_mem _ h₂⟩
    · simp only [splitWhere, ha, if_true, List.mem_cons] at ht
      rcases ht with rfl | ht
      · simp at hc
      · obtain ⟨h₁, h₂⟩ := ih t ht c hc
        exact ⟨h₁, List.mem_cons_of_mem _ h₂⟩

/-- No element of the split of the collapsed line holds a whitespace
character. -/
theorem Split_no_space (line : String) (i : Nat) :
    ∀ c ∈ (index (Split (spaceReplaceAll line)) i).data, isSpace c = false := by
  intro c hc
  unfold index at hc
  rw [List.getD_eq_getElem?_getD] at hc
  cases hg : (Split (spaceReplaceAll line))[i]? with
  | none =>
    rw [hg] at hc
    simp at hc
  | some t =>
    rw [hg] at hc
    have ht : t ∈ Split (spaceReplaceAll line) := List.getElem?_mem hg
    simp only [Split, spaceReplaceAll, List.mem_map] at ht
    obtain ⟨w, hw, rfl⟩ := ht
    obtain ⟨h₁, h₂⟩ := splitWhere_mem _ _ w hw c hc
    cases hsp : isSpace c
    · rfl
    · have := replaceRuns_space false line.data c h₂ hsp
      subst this
      exact absurd h₁ (by decide)

/-- C16: the name of every record `parseSlab` returns holds none of the
characters `:`, `.`, `-`, `/` and no whitespace character (tab, line feed,
form feed, carriage return or space, the characters the collapsing pattern
matches). -/
theorem parseSlab_name_label_safe (line : String) (r : slabInfo)
    (h : parseSlab line = .ok r) :
    ∀ c ∈ r.name.data, c ≠ ':' ∧ c ≠ '.' ∧ c ≠ '-' ∧ c ≠ '/' ∧ isSpace c = false := by
  obtain ⟨-, hname, -⟩ := (parseSlab_ok_iff line r).mp h
  intro c hc
  rw [hname, formatName_data, List.mem_map] at hc
  obtain ⟨a, ha, rfl⟩ := hc
  have hsp := Split_no_space line 0 a ha
  unfold normalizeChar
  by_cases hr : a = ':' ∨ a = '.' ∨ a = '-' ∨ a = '/'
  · rw [if_pos hr]
    decide
  · rw [if_neg hr]
    simp only [not_or] at hr
    exact ⟨hr.1, hr.2.1, hr.2.2.1, hr.2.2.2, hsp⟩

/-- C16, on the row of the specification: its name
`ext4_inode_cache_example` holds no such character. -/
theorem parseSlab_name_label_safe_example :
    parseSlab exampleRow = .ok exampleRecord ∧
    exampleRecord.name = "ext4_inode_cache_example" ∧
    "ext4_inode_cache_example".data.all (fun c =>
      decide (c ≠ ':' ∧ c ≠ '.' ∧ c ≠ '-' ∧ c ≠ '/' ∧ isSpace c = false)) = true :=
  ⟨by decide, rfl,
    List.all_eq_true.mpr (fun c hc =>
      decide_eq_true (parseSlab_name_label_safe exampleRow exampleRecord (by decide) c hc))⟩

/-! ## No trimming -/

/-- C17: `parseSlab` does not trim the line.  A line that begins or ends with
whitespace and has sixteen tokens splits into its tokens and an empty element
in front or behind, and is refused with the shape error.  A line that begins
with whitespace (and does not end with it) and has fifteen tokens splits into
an empty element and its tokens, passes the shape check, and is parsed into a
record with the empty name whose fields are read from the tokens 0 to 4, 7 to
9 and 12 to 14, one to the left of the documented columns. -/
theorem parseSlab_does_not_trim :
    (∀ line : String, (startsWithSpace line = true ∨ endsWithSpace line = true) →
      (tokens line).length = 16 →
      Split (spaceReplaceAll line) =
        (if startsWithSpace line = true then [""] else []) ++ tokens line ++
          (if endsWithSpace line = true then [""] else []) ∧
      16 < (Split (spaceReplaceAll line)).length ∧
      parseSlab line = .error (.errorf ("unable to parse: " ++ line))) ∧
    (∀ (line u0 u1 u2 u3 u4 u5 u6 u7 u8 u9 u10 u11 u12 u13 u14 : String)
      (v0 v1 v2 v3 v4 v7 v8 v9 v12 v13 v14 : Int),
      startsWithSpace line = true → endsWithSpace line = false →
      tokens line = [u0, u1, u2, u3, u4, u5, u6, u7, u8, u9, u10, u11, u12, u13, u14] →
      writesInt64 u0 v0 → writesInt64 u1 v1 → writesInt64 u2 v2 → writesInt64 u3 v3 →
      writesInt64 u4 v4 → writesInt64 u7 v7 → writesInt64 u8 v8 → writesInt64 u9 v9 →
      writesInt64 u12 v12 → writesInt64 u13 v13 → writesInt64 u14 v14 →
      Split (spaceReplaceAll line) =
        ["", u0, u1, u2, u3, u4, u5, u6, u7, u8, u9, u10, u11, u12, u13, u14] ∧
      parseSlab line = .ok
        { name := "", objActive := v0, objNum := v1, objSize := v2, objPerSlab := v3,
          pagesPerSlab := v4, limit := v7, batch := v8, sharedFactor := v9, slabActive := v12,
          slabNum := v13, sharedAvail := v14 }) := by
  constructor
  · intro line hedge htok
    have hne : line.data ≠ [] := by
      intro h
      rw [tokens_of_empty line h] at htok
      exact absurd htok (by decide)
    have hS := Split_structure line hne
    have hlen : 16 < (Split (spaceReplaceAll line)).length := by
      rw [hS]
      simp only [List.length_append, htok]
      rcases hedge with h | h
      · rw [if_pos h]
        simp only [List.length_singleton]
        omega
      · rw [if_pos h]
        simp only [List.length_singleton]
        omega
    exact ⟨hS, hlen, parseSlab_shape_error line (by omega)⟩
  · intro line u0 u1 u2 u3 u4 u5 u6 u7 u8 u9 u10 u11 u12 u13 u14 v0 v1 v2 v3 v4 v7 v8 v9 v12
      v13 v14 hs he htok h0 h1 h2 h3 h4 h7 h8 h9 h12 h13 h14
    have hne : line.data ≠ [] := by
      intro h
      rw [tokens_of_empty line h] at htok
      exact absurd htok (by simp)
    have hS := Split_structure line hne
    rw [if_pos hs, if_neg (by simp [he]), htok] at hS
    simp only [List.append_nil, List.cons_append, List.nil_append] at hS
    refine ⟨hS, ?_⟩
    rw [parseSlab_ok_iff, hS]
    exact ⟨rfl, rfl, ParseInt_valid u0 v0 h0.1 h0.2, ParseInt_valid u1 v1 h1.1 h1.2,
      ParseInt_valid u2 v2 h2.1 h2.2, ParseInt_valid u3 v3 h3.1 h3.2,
      ParseInt_valid u4 v4 h4.1 h4.2, ParseInt_valid u7 v7 h7.1 h7.2,
      ParseInt_valid u8 v8 h8.1 h8.2, ParseInt_valid u9 v9 h9.1 h9.2,
      ParseInt_valid u12 v12 h12.1 h12.2, ParseInt_valid u13 v13 h13.1 h13.2,
      ParseInt_valid u14 v14 h14.1 h14.2⟩

/-- C17, on three rows: the row of the specification is refused after a
leading tab and after a trailing space, and a data row without its name is
accepted after a leading space, its numbers landing in the wrong fields. -/
theorem parseSlab_does_not_trim_example :
    parseSlab "\text4_inode_cache:example 120 140 712 11 2 : tunables 54 27 0 : slabdata 10 10 0"
      = .error (.errorf
        "unable to parse: \text4_inode_cache:example 120 140 712 11 2 : tunables 54 27 0 : slabdata 10 10 0") ∧
    parseSlab "ext4_inode_cache:example 120 140 712 11 2 : tunables 54 27 0 : slabdata 10 10 0 "
      = .error (.errorf
        "unable to parse: ext4_inode_cache:example 120 140 712 11 2 : tunables 54 27 0 : slabdata 10 10 0 ") ∧
    parseSlab " 120 140 712 11 2 : tunables 54 27 0 : slabdata 10 10 0"
      = .ok { name := "", objActive := 120, objNum := 140, objSize := 712, objPerSlab := 11,
              pagesPerSlab := 2, limit := 54, batch := 27, sharedFactor := 0, slabActive := 10,
              slabNum := 10, sharedAvail := 0 } :=
  ⟨(parseSlab_does_not_trim.1
      "\text4_inode_cache:example 120 140 712 11 2 : tunables 54 27 0 : slabdata 10 10 0"
      (Or.inl (by decide)) (by decide)).2.2,
   (parseSlab_does_not_trim.1
      "ext4_inode_cache:example 120 140 712 11 2 : tunables 54 27 0 : slabdata 10 10 0 "
      (Or.inr (by decide)) (by decide)).2.2,
   (parseSlab_does_not_trim.2 " 120 140 712 11 2 : tunables 54 27 0 : slabdata 10 10 0"
      "120" "140" "712" "11" "2" ":" "tunables" "54" "27" "0" ":" "slabdata" "10" "10" "0"
      120 140 712 11 2 54 27 0 10 10 0 (by decide) (by decide) (by decide)
      ⟨by decide, by decide⟩ ⟨by decide, by decide⟩ ⟨by decide, by decide⟩
      ⟨by decide, by decide⟩ ⟨by decide, by decide⟩ ⟨by decide, by decide⟩
      ⟨by decide, by decide⟩ ⟨by decide, by decide⟩ ⟨by decide, by decide⟩
      ⟨by decide, by decide⟩ ⟨by decide, by decide⟩).2⟩

/-! ## The shape check and the number of tokens -/

theorem Split_of_empty (line : String) (h : line.data = []) :
    Split (spaceReplaceAll line) = [""] := by
  have : spaceReplaceAll line = "" := by
    apply String.ext
    simp [spaceReplaceAll, h, replaceRuns]
  rw [this]
  decide

/-- The number of elements of the split of the collapsed line: the tokens,
one more for leading and one more for trailing whitespace. -/
theorem Split_length (line : String) (hne : line.data ≠ []) :
    (Split (spaceReplaceAll line)).length =
      (if startsWithSpace line = true then 1 else 0) + (tokens line).length +
        (if endsWithSpace line = true then 1 else 0) := by
  rw [Split_structure line hne]
  simp only [List.length_append]
  cases startsWithSpace line <;> cases endsWithSpace line <;> simp

/-- After trailing whitespace the last of sixteen elements is empty. -/
theorem Split_last_empty (line : String) (hne : line.data ≠ [])
    (he : endsWithSpace line = true) (hlen : (Split (spaceReplaceAll line)).length = 16) :
    index (Split (spaceReplaceAll line)) 15 = "" := by
  have hS := Split_structure line hne
  rw [if_pos he] at hS
  have hl : ((if startsWithSpace line = true then [""] else []) ++ tokens line).length = 15 := by
    have h := hlen
    rw [hS, List.length_append] at h
    simpa using h
  unfold index
  rw [List.getD_eq_getElem?_getD, hS, List.getElem?_append_right (by omega), hl]
  rfl

/-- C2, amended: `parseSlab` returns a record only if the line has exactly
sixteen whitespace-delimited tokens and no whitespace before the first or
after the last, or exactly fifteen tokens after leading whitespace and no
trailing whitespace.  So a line whose number of tokens is not sixteen fails
and gives no record, the fifteen tokens after leading whitespace apart; and
whenever the tokens and the whitespace edges do not add up to sixteen
elements the error is the shape error, which quotes the original line. -/
theorem parseSlab_rejects_wrong_token_count (line : String) :
    (∀ r, parseSlab line = .ok r →
      ((tokens line).length = 16 ∧ startsWithSpace line = false ∧ endsWithSpace line = false) ∨
      ((tokens line).length = 15 ∧ startsWithSpace line = true ∧ endsWithSpace line = false)) ∧
    ((tokens line).length ≠ 16 →
      ¬ ((tokens line).length = 15 ∧ startsWithSpace line = true ∧
          endsWithSpace line = false) →
      (∃ e, parseSlab line = .error e) ∧ ∀ r, parseSlab line ≠ .ok r) ∧
    ((if startsWithSpace line = true then 1 else 0) + (tokens line).length +
        (if endsWithSpace line = true then 1 else 0) ≠ 16 →
      parseSlab line = .error (.errorf ("unable to parse: " ++ line))) := by
  have part₁ : ∀ r, parseSlab line = .ok r →
      ((tokens line).length = 16 ∧ startsWithSpace line = false ∧ endsWithSpace line = false) ∨
      ((tokens line).length = 15 ∧ startsWithSpace line = true ∧
        endsWithSpace line = false) := by
    intro r hr
    have hok := (parseSlab_ok_iff line r).mp hr
    have hlen := hok.1
    have h15 := hok.2.2.2.2.2.2.2.2.2.2.2.2
    by_cases hne : line.data = []
    · rw [Split_of_empty line hne] at hlen
      exact absurd hlen (by decide)
    · have hL := Split_length line hne
      rw [hlen] at hL
      cases he : endsWithSpace line
      · rw [he] at hL
        cases hs : startsWithSpace line
        · rw [hs] at hL
          left
          simp only [Bool.false_eq_true, if_false] at hL
          exact ⟨by omega, rfl, rfl⟩
        · rw [hs] at hL
          right
          simp only [Bool.false_eq_true, if_false, if_true] at hL
          exact ⟨by omega, rfl, rfl⟩
      · rw [Split_last_empty line hne he hlen] at h15
        have hempty : ParseInt "" = .error (syntaxError "ParseInt" "") := rfl
        rw [hempty] at h15
        cases h15
  refine ⟨part₁, ?_, ?_⟩
  · intro hn hex
    cases hp : parseSlab line with
    | error e => exact ⟨⟨e, rfl⟩, fun r hr => by cases hr⟩
    | ok r =>
      rcases part₁ r hp with h | h
      · exact absurd h.1 hn
      · exact absurd h hex
  · intro hsum
    apply parseSlab_shape_error
    by_cases hne : line.data = []
    · rw [Split_of_empty line hne]
      decide
    · rw [Split_length line hne]
      exact hsum

/-- C2 amended, on four lines: a row that lacks its last column, the same row
with padded columns and leading whitespace, and the header-like line ` a b c`
are refused with the shape error quoting the line as it was given; a row of
fifteen tokens before a trailing space gives no record. -/
theorem parseSlab_rejects_wrong_token_count_example :
    parseSlab "kmalloc-64 120 128 64 64 1 : tunables 0 0 0 : slabdata 2 2"
      = .error (.errorf "unable to parse: kmalloc-64 120 128 64 64 1 : tunables 0 0 0 : slabdata 2 2") ∧
    parseSlab "  kmalloc-64   120 128\t64 64 1 : tunables 0 0 0 : slabdata 2"
      = .error (.errorf
          "unable to parse:   kmalloc-64   120 128\t64 64 1 : tunables 0 0 0 : slabdata 2") ∧
    parseSlab " a b c" = .error (.errorf "unable to parse:  a b c") ∧
    (parseSlab "kmalloc-64 120 128 64 64 1 : tunables 0 0 0 : slabdata 2 2 ").toOption
      = none := by
  refine ⟨?_, ?_, ?_, ?_⟩
  · exact (parseSlab_rejects_wrong_token_count
      "kmalloc-64 120 128 64 64 1 : tunables 0 0 0 : slabdata 2 2").2.2 (by decide)
  · exact (parseSlab_rejects_wrong_token_count
      "  kmalloc-64   120 128\t64 64 1 : tunables 0 0 0 : slabdata 2").2.2 (by decide)
  · exact (parseSlab_rejects_wrong_token_count " a b c").2.2 (by decide)
  · obtain ⟨⟨e, he⟩, -⟩ := (parseSlab_rejects_wrong_token_count
      "kmalloc-64 120 128 64 64 1 : tunables 0 0 0 : slabdata 2 2 ").2.1
      (by decide) (by decide)
    rw [he]
    rfl

end Exporter
